import Mathlib

/-!
Verification development for the Spotify→Tidal playlist importer.

Shallow embedding of the core subsystems:
* `SongMatcher` (src/matching/SongMatcher.ts): string normalization,
  Levenshtein-based similarity scoring, query-strategy generation and
  best-match resolution;
* `PlaylistSyncManager` (src/services/PlaylistSyncManager.ts): sync
  planning, create/update execution and batched playlist writes;
* `ManejadorErrores` (src/utils/ErrorHandler.ts): error classification
  and the retry executor.

Numbers are modelled as `Nat`/`ℚ` (JS numbers are embedded as exact
rationals), strings as `String`/`List Char`, external services
(network calls) as explicit oracle functions, and promise-throwing
functions as `Except`-valued functions.
-/

namespace SpotifyTidal

/-! ### Character classes (JS regex semantics, ASCII `\w`, JS `\s`) -/

/-- JS `Math.max` on two numbers. -/
def ratMax (a b : ℚ) : ℚ := if a < b then b else a

/-- JS `Math.min` on two numbers. -/
def ratMin (a b : ℚ) : ℚ := if a < b then a else b

/-- JS `Math.abs`. -/
def ratAbs (a : ℚ) : ℚ := if a < 0 then -a else a

/-- JS `\w` character class (regex without the unicode flag): ASCII
letters, digits and underscore. -/
def isWordChar (c : Char) : Bool :=
  (48 ≤ c.toNat && c.toNat ≤ 57) || (65 ≤ c.toNat && c.toNat ≤ 90) ||
  (97 ≤ c.toNat && c.toNat ≤ 122) || (c.toNat == 95)

/-- JS `\s` character class / `String.prototype.trim` whitespace set:
ASCII whitespace, NBSP, the Unicode space separators, line/paragraph
separators and the BOM. -/
def isJsSpace (c : Char) : Bool :=
  (9 ≤ c.toNat && c.toNat ≤ 13) || c.toNat == 32 || c.toNat == 160 ||
  c.toNat == 5760 || (8192 ≤ c.toNat && c.toNat ≤ 8202) || c.toNat == 8232 ||
  c.toNat == 8233 || c.toNat == 8239 || c.toNat == 8287 || c.toNat == 12288 ||
  c.toNat == 65279

/-- JS `String.prototype.trim` on a character list: drop leading and
trailing whitespace. -/
def trimChars (l : List Char) : List Char :=
  ((l.dropWhile isJsSpace).reverse.dropWhile isJsSpace).reverse

/-- JS `.replace(/[^\w\s]/g, ' ')`: every character that is neither a
word character nor whitespace becomes a single space. -/
def replacePunct (l : List Char) : List Char :=
  l.map fun c => if isWordChar c || isJsSpace c then c else ' '

/-- Fuel-driven scan for `.replace(/\s+/g, ' ')`: each maximal run of
whitespace characters is replaced by a single space.  One unit of fuel
is spent per emitted character, so `l.length` fuel always suffices. -/
def collapseWsGo : Nat → List Char → List Char
  | 0, l => l
  | _ + 1, [] => []
  | fuel + 1, c :: cs =>
    if isJsSpace c then ' ' :: collapseWsGo fuel (cs.dropWhile isJsSpace)
    else c :: collapseWsGo fuel cs

/-- JS `.replace(/\s+/g, ' ')`. -/
def collapseWs (l : List Char) : List Char := collapseWsGo l.length l

/-- `SongMatcher.normalizeString` on a character list:
`str.toLowerCase().trim().replace(/[^\w\s]/g,' ').replace(/\s+/g,' ').trim()`.
JS `toLowerCase` is modelled by ASCII case mapping (`Char.toLower`),
which agrees with it on the ASCII range. -/
def normalizeChars (l : List Char) : List Char :=
  trimChars (collapseWs (replacePunct (trimChars (l.map Char.toLower))))

/-- `SongMatcher.normalizeString` (src/matching/SongMatcher.ts). -/
def normalizeString (s : String) : String :=
  ⟨normalizeChars s.data⟩

/-! ### Levenshtein distance (`SongMatcher.levenshteinDistance`)

The source fills the DP matrix row by row (rows indexed by `str2`);
we embed the same computation as a row-wise fold. -/

/-- One cell-by-cell pass producing the tail of the next DP row:
`diag` is `matrix[j-1][i-1]`, `left` is `matrix[j][i-1]`, `prev` is the
remaining tail of row `j-1` starting at column `i`. -/
def levStep (c2 : Char) : List Char → Nat → Nat → List Nat → List Nat
  | [], _, _, _ => []
  | _, _, _, [] => []
  | c1 :: cs, diag, left, pAbove :: pRest =>
    let cur := min (left + 1) (min (pAbove + 1) (diag + if c1 = c2 then 0 else 1))
    cur :: levStep c2 cs pAbove cur pRest

/-- Next DP row from the previous row (`matrix[j][0] = j` is
`head prev + 1`). -/
def levNextRow (s1 : List Char) (prev : List Nat) (c2 : Char) : List Nat :=
  match prev with
  | [] => []
  | p0 :: pRest => (p0 + 1) :: levStep c2 s1 p0 (p0 + 1) pRest

/-- `SongMatcher.levenshteinDistance`: row 0 is `0..len(str1)`, each
character of `str2` produces the next row, and the answer is the last
cell of the last row. -/
def levenshteinDistance (s1 s2 : List Char) : Nat :=
  (s2.foldl (levNextRow s1) (List.range (s1.length + 1))).getLastD 0

/-! ### Similarity scoring (`SongMatcher`) -/

/-- `SongMatcher.calculateStringSimilarity`: 1.0 for equal strings, 0.0
if exactly one is empty, otherwise `1 - distance / maxLength`. -/
def calculateStringSimilarity (str1 str2 : List Char) : ℚ :=
  if str1 = str2 then 1
  else if str1.length = 0 ∨ str2.length = 0 then 0
  else 1 - (levenshteinDistance str1 str2 : ℚ) / ((max str1.length str2.length : Nat) : ℚ)

/-- Spotify artist (src/models/Track.ts `Artist`; only `name` is read
by the matcher). -/
structure Artist where
  id : String
  name : String
deriving DecidableEq

/-- Spotify album (src/models/Track.ts `Album`). -/
structure Album where
  id : String
  name : String
deriving DecidableEq

/-- Spotify track (src/models/Track.ts `Track`); `duration` is in
milliseconds. -/
structure Track where
  id : String
  title : String
  artists : List Artist
  album : Album
  duration : ℚ
deriving DecidableEq

/-- Tidal artist (models/TidalTypes.ts; the matcher reads `name`). -/
structure TidalArtist where
  name : String
deriving DecidableEq

/-- Tidal album (models/TidalTypes.ts; the matcher reads `title`). -/
structure TidalAlbum where
  title : String
deriving DecidableEq

/-- Tidal track as consumed by the matcher: numeric `id` (converted
with `toString` by the sync manager), `artist`, optional `artists`
array, `album`, and `duration` in seconds. -/
structure TidalTrack where
  id : Nat
  title : String
  artist : TidalArtist
  artists : Option (List TidalArtist)
  album : TidalAlbum
  duration : ℚ
deriving DecidableEq

/-- `SongMatcher.calculateArtistSimilarity`: maximum pairwise
normalized string similarity over the cartesian product of the two
artist lists, 0.0 if either list is empty. -/
def calculateArtistSimilarity (spotifyArtists : List Artist)
    (tidalArtists : List TidalArtist) : ℚ :=
  if spotifyArtists = [] ∨ tidalArtists = [] then 0
  else
    spotifyArtists.foldl
      (fun m a =>
        tidalArtists.foldl
          (fun m2 b =>
            ratMax m2 (calculateStringSimilarity (normalizeChars a.name.data)
              (normalizeChars b.name.data)))
          m)
      0

/-- `SongMatcher.calculateDurationSimilarity`: neutral 0.5 when either
duration is zero, otherwise a step function of the percentage
difference relative to the average. -/
def calculateDurationSimilarity (duration1 duration2 : ℚ) : ℚ :=
  if duration1 = 0 ∨ duration2 = 0 then 1/2
  else
    let difference := ratAbs (duration1 - duration2)
    let average := (duration1 + duration2) / 2
    let percentageDifference := difference / average
    if percentageDifference ≤ 1/10 then 1
    else if percentageDifference ≤ 2/10 then 8/10
    else if percentageDifference ≤ 3/10 then 6/10
    else 3/10

/-- JS `track.artists[0]?.name || ''`: primary artist name, empty
string when the list is empty (the `|| ''` is the identity on the
remaining cases since it only replaces the empty string by itself). -/
def primaryArtistName (t : Track) : String :=
  ((t.artists.head?).map Artist.name).getD ""

/-- `SongMatcher.calculateSimilarity`: weighted sum of title (0.4),
artist (0.4), album (0.15) and duration (0.05) similarities, with the
Tidal duration converted from seconds to milliseconds, clamped to
`[0,1]`. -/
def calculateSimilarity (spotifyTrack : Track) (tidalTrack : TidalTrack) : ℚ :=
  let spTitle := normalizeChars spotifyTrack.title.data
  let spAlbum := normalizeChars spotifyTrack.album.name.data
  let tiTitle := normalizeChars tidalTrack.title.data
  let tiAlbum := normalizeChars tidalTrack.album.title.data
  let titleSimilarity := calculateStringSimilarity spTitle tiTitle
  let artistSimilarity := calculateArtistSimilarity spotifyTrack.artists
    (match tidalTrack.artists with
     | some l => l
     | none => [tidalTrack.artist])
  let albumSimilarity := calculateStringSimilarity spAlbum tiAlbum
  let durationSimilarity := calculateDurationSimilarity spotifyTrack.duration
    (tidalTrack.duration * 1000)
  let totalSimilarity :=
    titleSimilarity * (4/10) + artistSimilarity * (4/10) +
    albumSimilarity * (15/100) + durationSimilarity * (5/100)
  ratMin 1 (ratMax 0 totalSimilarity)

/-- `SongMatcher.SIMILARITY_THRESHOLD` (0.7). -/
def SIMILARITY_THRESHOLD : ℚ := 7/10

/-- `SongMatcher.HIGH_CONFIDENCE_THRESHOLD` (0.9). -/
def HIGH_CONFIDENCE_THRESHOLD : ℚ := 9/10

/-! ### `SongMatcher.cleanTitle`

The source strips collaboration/remix/explicit annotations with four
`String.replace` calls on global, case-insensitive regexes and then
collapses whitespace.  Each regex is embedded as a left-to-right scan
with the engine's leftmost-match, greedy-`\s*`/lazy-`.*?` semantics
(`.` never matches a newline). -/

/-- Case-insensitive prefix test for a literal pattern (regex `i`
flag, ASCII case folding). -/
def ciPrefix : List Char → List Char → Bool
  | [], _ => true
  | _ :: _, [] => false
  | p :: ps, c :: cs => (Char.toLower p == Char.toLower c) && ciPrefix ps cs

/-- Lazy `.*?KW` search: scan forward (never across a newline) for the
first position where one of the literal alternatives matches
case-insensitively, and return the remainder after the matched
alternative. -/
def findKw (kws : List (List Char)) : List Char → Option (List Char)
  | [] => none
  | c :: cs =>
    match kws.find? (fun k => ciPrefix k (c :: cs)) with
    | some k => some ((c :: cs).drop k.length)
    | none => if c = '\n' then none else findKw kws cs

/-- Greedy `\.?`: consume one dot if present. -/
def skipOptDot (dotOpt : Bool) (l : List Char) : List Char :=
  if dotOpt then
    match l with
    | '.' :: r => r
    | _ => l
  else l

/-- Lazy `.*?[\)\]]` search: scan forward (never across a newline) for
the first closing `)` or `]` and return the remainder after it. -/
def findClose : List Char → Option (List Char)
  | [] => none
  | c :: cs =>
    if c = ')' ∨ c = ']' then some cs
    else if c = '\n' then none else findClose cs

/-- Attempt `\s*[\(\[].*?KW(\.?).*?[\)\]]` at the head of `l`:
consume leading whitespace, require an opening bracket, find the
keyword and then the closing bracket; return the remainder after the
match. -/
def tryBracketMatch (kws : List (List Char)) (dotOpt : Bool)
    (l : List Char) : Option (List Char) :=
  match l.dropWhile isJsSpace with
  | [] => none
  | c :: cs =>
    if c = '(' ∨ c = '[' then
      (findKw kws cs).bind fun afterKw => findClose (skipOptDot dotOpt afterKw)
    else none

/-- Global replacement of a bracketed-annotation pattern by the empty
string: scan left to right, at each position attempting the pattern;
on a match, drop it and continue after the match. -/
def replaceBracketPat (kws : List (List Char)) (dotOpt : Bool) :
    Nat → List Char → List Char
  | 0, l => l
  | _ + 1, [] => []
  | fuel + 1, c :: cs =>
    match tryBracketMatch kws dotOpt (c :: cs) with
    | some rest => replaceBracketPat kws dotOpt fuel rest
    | none => c :: replaceBracketPat kws dotOpt fuel cs

/-- Attempt `\s*feat\.?\s+.*` at the head of `l`: leading whitespace,
`feat`, optional dot, at least one whitespace, then everything up to
the end of the line; return the remainder. -/
def tryFeatSuffix (l : List Char) : Option (List Char) :=
  let rest0 := l.dropWhile isJsSpace
  if ciPrefix "feat".data rest0 then
    let r2 := skipOptDot true (rest0.drop 4)
    match r2 with
    | c :: _ =>
      if isJsSpace c then some ((r2.dropWhile isJsSpace).dropWhile (fun d => !(d = '\n')))
      else none
    | [] => none
  else none

/-- Global replacement of the `feat.`-to-end-of-line pattern. -/
def replaceFeatSuffix : Nat → List Char → List Char
  | 0, l => l
  | _ + 1, [] => []
  | fuel + 1, c :: cs =>
    match tryFeatSuffix (c :: cs) with
    | some rest => replaceFeatSuffix fuel rest
    | none => c :: replaceFeatSuffix fuel cs

/-- `SongMatcher.cleanTitle`: remove bracketed `feat` annotations, bare
`feat.` suffixes, bracketed remix/version/edit/mix/remaster and
explicit annotations, then collapse whitespace and trim. -/
def cleanTitle (title : String) : String :=
  let l0 := title.data
  let l1 := replaceBracketPat ["feat".data] true l0.length l0
  let l2 := replaceFeatSuffix l1.length l1
  let l3 := replaceBracketPat
    ["remix".data, "version".data, "edit".data, "mix".data, "remaster".data]
    false l2.length l2
  let l4 := replaceBracketPat ["explicit".data] false l3.length l3
  ⟨trimChars (collapseWs l4)⟩

/-! ### Query generation and resolution (`SongMatcher`) -/

/-- A search query strategy (`generateSearchQueries` element). -/
structure SearchQuery where
  artist : String
  title : String
  album : Option String
  description : String
deriving DecidableEq

/-- `SongMatcher.generateSearchQueries`: full search, artist+title,
cleaned title, then (for multi-artist tracks) all artists joined and
each non-primary artist individually. -/
def generateSearchQueries (track : Track) : List SearchQuery :=
  let primaryArtist := primaryArtistName track
  let title := track.title
  let album := track.album.name
  [⟨primaryArtist, title, some album,
      "Búsqueda completa: \"" ++ primaryArtist ++ "\" - \"" ++ title ++
        "\" del álbum \"" ++ album ++ "\""⟩,
   ⟨primaryArtist, title, none,
      "Artista + Título: \"" ++ primaryArtist ++ "\" - \"" ++ title ++ "\""⟩,
   ⟨primaryArtist, cleanTitle title, none,
      "Título limpio: \"" ++ primaryArtist ++ "\" - \"" ++ (cleanTitle title).data.asString ++ "\""⟩]
  ++ (if track.artists.length > 1 then
        [⟨" ".intercalate (track.artists.map Artist.name), title, none,
           "Todos los artistas: \"" ++ " ".intercalate (track.artists.map Artist.name) ++
             "\" - \"" ++ title ++ "\""⟩]
      else [])
  ++ (if track.artists.length > 1 then
        (track.artists.drop 1).map fun artist =>
          ⟨artist.name, title, none,
            "Artista alternativo: \"" ++ artist.name ++ "\" - \"" ++ title ++ "\""⟩
      else [])

/-- Item of the `data` array of a Tidal search response (used by the
update path, which reads `searchResults.data[0].id`). -/
structure SearchDataItem where
  id : String
deriving DecidableEq

/-- Tidal search response envelope as read by the two call sites:
`findBestMatch` reads `searchResult.tracks.items`, the update path of
the sync manager reads `searchResults.data`. -/
structure SearchResponse where
  tracksItems : List TidalTrack
  data : List SearchDataItem
deriving DecidableEq

/-- `TidalService.searchTrack` capability as seen by the matcher: a
call-indexed oracle (the service is a remote, stateful system, so two
calls with equal arguments may differ); a thrown error is an `Except.error`. -/
def SearchOracle := Nat → String → String → Except String SearchResponse

/-- `MatchResult` (src/matching/SongMatcher.ts). -/
structure MatchResult where
  tidalTrack : Option TidalTrack
  confidence : ℚ
  searchAttempts : List String
deriving DecidableEq

/-- Inner candidate loop of `findBestMatch`: update the best match on
a candidate that strictly improves the best confidence and reaches the
similarity threshold, breaking once high confidence is reached. -/
def scanCandidates (spotifyTrack : Track) :
    List TidalTrack → Option TidalTrack → ℚ → Option TidalTrack × ℚ
  | [], best, conf => (best, conf)
  | c :: cs, best, conf =>
    let confidence := calculateSimilarity spotifyTrack c
    if confidence > conf ∧ confidence ≥ SIMILARITY_THRESHOLD then
      if confidence ≥ HIGH_CONFIDENCE_THRESHOLD then (some c, confidence)
      else scanCandidates spotifyTrack cs (some c) confidence
    else scanCandidates spotifyTrack cs best conf

/-- Outer strategy loop of `findBestMatch`: try each query in order,
recording its description, skipping empty results, scanning candidates
and stopping once the best confidence reaches the high-confidence
threshold; a throwing search is caught and the loop continues. -/
def findBestMatchLoop (spotifyTrack : Track) (search : SearchOracle) :
    List SearchQuery → Nat → List String → Option TidalTrack → ℚ → MatchResult
  | [], _, attempts, best, conf => ⟨best, conf, attempts⟩
  | q :: qs, n, attempts, best, conf =>
    let attempts1 := attempts ++ [q.description]
    match search n q.artist q.title with
    | .error _ => findBestMatchLoop spotifyTrack search qs (n + 1) attempts1 best conf
    | .ok searchResult =>
      if searchResult.tracksItems = [] then
        findBestMatchLoop spotifyTrack search qs (n + 1) attempts1 best conf
      else
        let (best1, conf1) := scanCandidates spotifyTrack searchResult.tracksItems best conf
        if conf1 ≥ HIGH_CONFIDENCE_THRESHOLD then ⟨best1, conf1, attempts1⟩
        else findBestMatchLoop spotifyTrack search qs (n + 1) attempts1 best1 conf1

/-- `SongMatcher.findBestMatch` (the returned value; diagnostic
logging of not-found tracks is a side effect outside the model). -/
def findBestMatch (search : SearchOracle) (spotifyTrack : Track) : MatchResult :=
  findBestMatchLoop spotifyTrack search (generateSearchQueries spotifyTrack) 0 [] none 0

/-! ### Playlist synchronization (`PlaylistSyncManager`) -/

/-- Spotify playlist (models/Playlist.ts is not part of the provided
sources; fields are the ones read by PlaylistSyncManager: `id`, `name`,
`description`, `tracks` and `totalTracks`). -/
structure Playlist where
  id : String
  name : String
  description : String
  tracks : List Track
  totalTracks : Nat
deriving DecidableEq

/-- Tidal playlist (models/TidalTypes.ts is not part of the provided
sources; fields are the ones read by PlaylistSyncManager: `uuid`,
`title` and `numberOfTracks`). -/
structure TidalPlaylist where
  uuid : String
  title : String
  numberOfTracks : Nat
deriving DecidableEq

/-- Planner action of a `PlaylistComparison`. -/
inductive SyncAction
  | create
  | update
  | skip
deriving DecidableEq

/-- `PlaylistComparison` (src/services/PlaylistSyncManager.ts). -/
structure PlaylistComparison where
  spotifyPlaylist : Playlist
  tidalPlaylist : Option TidalPlaylist
  action : SyncAction
  reason : String
deriving DecidableEq

/-- JS `s.toLowerCase().trim()` used for playlist-name matching. -/
def lowerTrim (s : String) : String :=
  ⟨trimChars (s.data.map Char.toLower)⟩

/-- Loop body of `PlaylistSyncManager.comparePlaylistsForSync`: the
comparison pushed for one Spotify playlist — an empty playlist is
skipped, a case-insensitive trimmed name match (first match wins, via
`Array.find`) with strictly fewer Tidal tracks is updated, a match
with at least as many tracks is skipped, and no match means create. -/
def compareOnePlaylist (tidalPlaylists : List TidalPlaylist)
    (spotifyPlaylist : Playlist) : PlaylistComparison :=
  if spotifyPlaylist.totalTracks = 0 then
    ⟨spotifyPlaylist, none, .skip, "Playlist is empty"⟩
  else
    match tidalPlaylists.find?
        (fun tidalPlaylist => lowerTrim tidalPlaylist.title == lowerTrim spotifyPlaylist.name) with
    | some matchingTidalPlaylist =>
      if matchingTidalPlaylist.numberOfTracks < spotifyPlaylist.totalTracks then
        ⟨spotifyPlaylist, some matchingTidalPlaylist, .update,
          "Tidal playlist has " ++ toString matchingTidalPlaylist.numberOfTracks ++
            " tracks, Spotify has " ++ toString spotifyPlaylist.totalTracks⟩
      else
        ⟨spotifyPlaylist, some matchingTidalPlaylist, .skip,
          "Tidal playlist appears to be up to date"⟩
    | none => ⟨spotifyPlaylist, none, .create, "Playlist does not exist in Tidal"⟩

/-- `PlaylistSyncManager.comparePlaylistsForSync`: one comparison per
Spotify playlist, in input order. -/
def comparePlaylistsForSync (spotifyPlaylists : List Playlist)
    (tidalPlaylists : List TidalPlaylist) : List PlaylistComparison :=
  spotifyPlaylists.map (compareOnePlaylist tidalPlaylists)

/-- Outcome of `PlaylistSyncManager.addTracksToTidalPlaylist` together
with the matched ids it sends to `addTracksToPlaylist`. -/
structure AddTracksOutcome where
  matchedTrackIds : List String
  successfulTracks : Nat
  failedTracks : Nat
  errors : List String
deriving DecidableEq

/-- Per-track accumulation step of `addTracksToTidalPlaylist`: a track
counts as successful exactly when the matcher returned a track with
confidence strictly greater than 0.7.  (The source processes tracks in
groups of 10 with a joined `Promise.all`; results are accumulated here
in source-track order, the deterministic sequentialization.) -/
def addTracksStep (search : SearchOracle) (acc : AddTracksOutcome) (track : Track) :
    AddTracksOutcome :=
  let matchResult := findBestMatch search track
  if matchResult.tidalTrack.isSome ∧ matchResult.confidence > 7/10 then
    { acc with
      matchedTrackIds := acc.matchedTrackIds ++
        [((matchResult.tidalTrack.map (fun t => toString t.id)).getD "")],
      successfulTracks := acc.successfulTracks + 1 }
  else
    { acc with
      failedTracks := acc.failedTracks + 1,
      errors := acc.errors ++
        ["Could not find match for \"" ++ primaryArtistName track ++ " - " ++ track.title ++ "\""] }

/-- `PlaylistSyncManager.addTracksToTidalPlaylist` (create path):
resolve every track with `SongMatcher.findBestMatch`, collect ids of
matches above the 0.7 acceptance bound, then hand them to the
`addTracksToPlaylist` capability; if that final call throws, all
successes are reclassified as failures. -/
def addTracksToTidalPlaylist (search : SearchOracle)
    (addCall : List String → Except String Unit)
    (spotifyTracks : List Track) : AddTracksOutcome :=
  let acc := spotifyTracks.foldl (addTracksStep search) ⟨[], 0, 0, []⟩
  if acc.matchedTrackIds = [] then acc
  else
    match addCall acc.matchedTrackIds with
    | .ok _ => acc
    | .error e =>
      { acc with
        errors := acc.errors ++ ["Failed to add tracks to playlist: " ++ e],
        failedTracks := acc.failedTracks + acc.successfulTracks,
        successfulTracks := 0 }

/-- Simplified Tidal track-verification record
(`TidalTrackVerification`); the update path only reads `isAvailable`. -/
structure TidalTrackVerification where
  id : String
  isAvailable : Bool
deriving DecidableEq

/-- `TidalService.verifyTrack` capability: `none` models the `null`
returned when the lookup fails. -/
def VerifyOracle := String → Option TidalTrackVerification

/-- Deterministic (call-independent) search capability used when the
create and update paths are compared on the same service. -/
def SimpleSearch := String → String → Except String SearchResponse

/-- Per-track body of the update loop of
`PlaylistSyncManager.updateExistingPlaylist`: search with all artist
names joined by a comma, take the first id of the response `data`
array, verify it, and collect it only if available; otherwise record
the corresponding failure message. -/
def updateResolveTrack (search : SimpleSearch) (verify : VerifyOracle)
    (track : Track) : Sum String String :=
  let artistNames := ", ".intercalate (track.artists.map Artist.name)
  match search artistNames track.title with
  | .error _ => .inr (track.title ++ " - " ++ artistNames ++ " (error de búsqueda)")
  | .ok searchResults =>
    match searchResults.data with
    | [] => .inr (track.title ++ " - " ++ artistNames ++ " (no encontrada)")
    | firstItem :: _ =>
      match verify firstItem.id with
      | some verifiedTrack =>
        if verifiedTrack.isAvailable then .inl firstItem.id
        else .inr (track.title ++ " - " ++ artistNames ++ " (no disponible)")
      | none => .inr (track.title ++ " - " ++ artistNames ++ " (no disponible)")

/-- The update loop of `updateExistingPlaylist`: accumulate
`foundTrackIds` and `failedTracks` over the source tracks in order. -/
def updateResolveTracks (search : SimpleSearch) (verify : VerifyOracle)
    (tracks : List Track) : List String × List String :=
  tracks.foldl
    (fun acc track =>
      match updateResolveTrack search verify track with
      | .inl id => (acc.1 ++ [id], acc.2)
      | .inr msg => (acc.1, acc.2 ++ [msg]))
    ([], [])

/-- Event trace of `PlaylistSyncManager.addTracksInBatches`: a write
of one chunk, or the fixed 1000 ms inter-batch sleep. -/
inductive BatchEvent
  | write (chunk : List String)
  | delay (ms : Nat)
deriving DecidableEq

/-- `PlaylistSyncManager.addTracksInBatches` (BATCH_SIZE = 20): the
loop takes 20 ids at a time, writes them, and sleeps 1000 ms whenever
further ids remain.  The model records the trace of writes and
sleeps. -/
def addTracksInBatches : List String → List BatchEvent
  | [] => []
  | c :: cs =>
    let batch := (c :: cs).take 20
    let rest := (c :: cs).drop 20
    if rest = [] then [.write batch]
    else .write batch :: .delay 1000 :: addTracksInBatches rest
termination_by l => l.length
decreasing_by
  simp only [List.length_drop, List.length_cons]
  omega

/-- Action recorded in a `PlaylistSyncResult`. -/
inductive ResultAction
  | created
  | updated
  | skipped
deriving DecidableEq

/-- `PlaylistSyncResult` (src/services/PlaylistSyncManager.ts). -/
structure PlaylistSyncResult where
  playlistName : String
  action : ResultAction
  totalTracks : Nat
  successfulTracks : Nat
  failedTracks : Nat
  tidalPlaylistId : Option String
  errors : List String
deriving DecidableEq

/-- `SyncSummary` (src/services/PlaylistSyncManager.ts). -/
structure SyncSummary where
  totalPlaylists : Nat
  playlistsCreated : Nat
  playlistsUpdated : Nat
  playlistsSkipped : Nat
  totalTracksProcessed : Nat
  totalTracksSuccessful : Nat
  totalTracksFailed : Nat
  results : List PlaylistSyncResult
deriving DecidableEq

/-- Result built inline by the skip arm of `performFullSync`. -/
def skipResultFor (comparison : PlaylistComparison) : PlaylistSyncResult :=
  { playlistName := comparison.spotifyPlaylist.name
    action := .skipped
    totalTracks := comparison.spotifyPlaylist.totalTracks
    successfulTracks := 0
    failedTracks := 0
    tidalPlaylistId := none
    errors := [comparison.reason] }

/-- The per-comparison result of the `performFullSync` loop.
`doCreate` and `doUpdate` stand for the effectful
`syncPlaylistToTidal` and `updateExistingPlaylist` calls (arbitrary
result-producing capabilities). -/
def resultFor (doCreate : Playlist → PlaylistSyncResult)
    (doUpdate : Playlist → Option TidalPlaylist → PlaylistSyncResult)
    (comparison : PlaylistComparison) : PlaylistSyncResult :=
  match comparison.action with
  | .create => doCreate comparison.spotifyPlaylist
  | .update => doUpdate comparison.spotifyPlaylist comparison.tidalPlaylist
  | .skip => skipResultFor comparison

/-- One iteration of the `performFullSync` loop: bump the counter of
the chosen action, append the result and add its track totals. -/
def performFullSyncStep (doCreate : Playlist → PlaylistSyncResult)
    (doUpdate : Playlist → Option TidalPlaylist → PlaylistSyncResult)
    (summary : SyncSummary) (comparison : PlaylistComparison) : SyncSummary :=
  let result := resultFor doCreate doUpdate comparison
  let summary1 :=
    match comparison.action with
    | .create => { summary with playlistsCreated := summary.playlistsCreated + 1 }
    | .update => { summary with playlistsUpdated := summary.playlistsUpdated + 1 }
    | .skip => { summary with playlistsSkipped := summary.playlistsSkipped + 1 }
  { summary1 with
    results := summary1.results ++ [result]
    totalTracksProcessed := summary1.totalTracksProcessed + result.totalTracks
    totalTracksSuccessful := summary1.totalTracksSuccessful + result.successfulTracks
    totalTracksFailed := summary1.totalTracksFailed + result.failedTracks }

/-- `PlaylistSyncManager.performFullSync` (non-throwing runs): plan the
comparisons, then process each one in order, accumulating the
summary. -/
def performFullSync (doCreate : Playlist → PlaylistSyncResult)
    (doUpdate : Playlist → Option TidalPlaylist → PlaylistSyncResult)
    (spotifyPlaylists : List Playlist)
    (tidalPlaylists : List TidalPlaylist) : SyncSummary :=
  let comparisons := comparePlaylistsForSync spotifyPlaylists tidalPlaylists
  comparisons.foldl (performFullSyncStep doCreate doUpdate)
    { totalPlaylists := comparisons.length
      playlistsCreated := 0
      playlistsUpdated := 0
      playlistsSkipped := 0
      totalTracksProcessed := 0
      totalTracksSuccessful := 0
      totalTracksFailed := 0
      results := [] }

/-! ### Error classification and retry (`ManejadorErrores`,
src/utils/ErrorHandler.ts) -/

/-- The two remote services. -/
inductive Servicio
  | spotify
  | tidal
deriving DecidableEq

/-- JS template interpolation of a `Servicio` value. -/
def Servicio.lower : Servicio → String
  | .spotify => "spotify"
  | .tidal => "tidal"

/-- `servicio.toUpperCase()`. -/
def Servicio.upper : Servicio → String
  | .spotify => "SPOTIFY"
  | .tidal => "TIDAL"

/-- Which `ErrorSpotifyTidal` subclass an error instance belongs to
(`instanceof` tests); the rate-limit subclass carries its
`reintentarDespues` field. -/
inductive ErrorKind
  | base
  | autenticacion
  | limiteVelocidad (reintentarDespues : ℚ)
  | red
  | servicioNoDisponible
deriving DecidableEq

/-- `ErrorSpotifyTidal` and its subclasses (ErrorHandler.ts). -/
structure ErrorSpotifyTidal where
  mensaje : String
  codigo : String
  reintentar : Bool
  kind : ErrorKind
deriving DecidableEq

/-- `new ErrorAutenticacion(mensaje, servicio)`. -/
def mkErrorAutenticacion (mensaje : String) (servicio : Servicio) : ErrorSpotifyTidal :=
  ⟨mensaje, "ERROR_AUTH_" ++ servicio.upper, false, .autenticacion⟩

/-- `new ErrorLimiteVelocidad(mensaje, reintentarDespues, servicio)`. -/
def mkErrorLimiteVelocidad (mensaje : String) (reintentarDespues : ℚ)
    (servicio : Servicio) : ErrorSpotifyTidal :=
  ⟨mensaje, "LIMITE_VELOCIDAD_" ++ servicio.upper, true, .limiteVelocidad reintentarDespues⟩

/-- `new ErrorRed(mensaje)`. -/
def mkErrorRed (mensaje : String) : ErrorSpotifyTidal :=
  ⟨mensaje, "ERROR_RED", true, .red⟩

/-- `new ErrorServicioNoDisponible(mensaje, servicio)`. -/
def mkErrorServicioNoDisponible (mensaje : String) (servicio : Servicio) :
    ErrorSpotifyTidal :=
  ⟨mensaje, "SERVICIO_NO_DISPONIBLE_" ++ servicio.upper, true, .servicioNoDisponible⟩

/-- Axios response fields read by `clasificarErrorAxios`: the HTTP
status, `statusText`, the `error`/`error_description` members of the
response body, and the `retry-after` header. -/
structure AxiosResponse where
  status : Nat
  statusText : String
  dataError : Option String
  dataErrorDescription : Option String
  retryAfter : Option String
deriving DecidableEq

/-- A raw thrown value as classified by `clasificarError`: an already
classified `ErrorSpotifyTidal`, an Axios error (with or without a
response), a plain `Error` (message plus optional `code`), or a
non-`Error` value. -/
inductive JsError
  | spotifyTidal (e : ErrorSpotifyTidal)
  | axios (response : Option AxiosResponse) (message : String)
  | generic (message : String) (code : Option String)
  | other
deriving DecidableEq

/-- JS `a || b` on strings coming from optional chaining: `b` when `a`
is absent or empty (falsy). -/
def jsOrElse (a : Option String) (b : String) : String :=
  match a with
  | some s => if s = "" then b else s
  | none => b

/-- Decimal digit run value for `parseInt`. -/
def digitsValue (l : List Char) : Nat :=
  l.foldl (fun acc c => acc * 10 + (c.toNat - 48)) 0

/-- JS `parseInt(s, 10)`: skip leading whitespace, optional sign, then
a non-empty digit prefix; `none` models `NaN`. -/
def jsParseInt (s : String) : Option Int :=
  let l := s.data.dropWhile isJsSpace
  let signedDigits : List Char → Bool → Option Int := fun l neg =>
    let ds := l.takeWhile fun c => 48 ≤ c.toNat && c.toNat ≤ 57
    if ds = [] then none
    else some (if neg then -(digitsValue ds : Int) else (digitsValue ds : Int))
  match l with
  | '-' :: rest => signedDigits rest true
  | '+' :: rest => signedDigits rest false
  | rest => signedDigits rest false

/-- `ManejadorErrores.obtenerRetrasoReintentarDespues`: the parsed
`retry-after` header in milliseconds, defaulting to 5000 ms. -/
def obtenerRetrasoReintentarDespues (response : AxiosResponse) : ℚ :=
  match response.retryAfter with
  | some s =>
    if s = "" then 5000
    else
      match jsParseInt s with
      | some segundos => (segundos : ℚ) * 1000
      | none => 5000
  | none => 5000

/-- `ManejadorErrores.clasificarErrorAxios`: no response means a
network error; then 429, 401, 403, OAuth-flavoured 400, 5xx, other
4xx, and a final catch-all (a JS-falsy status of 0 skips the ranged
branches). -/
def clasificarErrorAxios (response : Option AxiosResponse) (message : String)
    (servicio : Servicio) : ErrorSpotifyTidal :=
  match response with
  | none => mkErrorRed ("Error de red: " ++ message)
  | some r =>
    let estado := r.status
    let textoEstado := r.statusText
    if estado = 429 then
      let reintentarDespues := obtenerRetrasoReintentarDespues r
      mkErrorLimiteVelocidad
        ("Límite de velocidad alcanzado en " ++ servicio.lower ++
          ". Reintentar después de " ++ toString reintentarDespues ++ "ms")
        reintentarDespues servicio
    else if estado = 401 then
      mkErrorAutenticacion
        (jsOrElse r.dataErrorDescription (jsOrElse r.dataError
          "Autenticación fallida - credenciales inválidas o expiradas")) servicio
    else if estado = 403 then
      mkErrorAutenticacion
        (jsOrElse r.dataErrorDescription (jsOrElse r.dataError
          "Acceso prohibido - permisos insuficientes")) servicio
    else if estado = 400 ∧ (r.dataError = some "invalid_client" ∨
        r.dataError = some "invalid_request" ∨ r.dataError = some "invalid_grant" ∨
        r.dataError = some "unsupported_grant_type") then
      mkErrorAutenticacion
        (jsOrElse r.dataErrorDescription (jsOrElse r.dataError
          "Credenciales de cliente inválidas")) servicio
    else if estado ≠ 0 ∧ 500 ≤ estado then
      mkErrorServicioNoDisponible
        ("Servicio " ++ servicio.lower ++ " no disponible (" ++ toString estado ++
          "): " ++ textoEstado) servicio
    else if estado ≠ 0 ∧ 400 ≤ estado ∧ estado < 500 then
      ⟨jsOrElse r.dataErrorDescription (jsOrElse r.dataError
          ("Error del cliente (" ++ toString estado ++ "): " ++ textoEstado)),
        "ERROR_CLIENTE_" ++ toString estado, false, .base⟩
    else
      ⟨"Error HTTP (" ++ toString estado ++ "): " ++ textoEstado,
        "ERROR_HTTP_" ++ toString estado,
        if estado ≠ 0 then decide (500 ≤ estado) else false, .base⟩

/-- Substring test (`String.prototype.includes`) on character lists. -/
def hasSubstr : List Char → List Char → Bool
  | [], p => p.isEmpty
  | c :: cs, p => p.isPrefixOf (c :: cs) || hasSubstr cs p

/-- `ManejadorErrores.esErrorRed`: the message contains, or the `code`
property equals, one of the common network error codes. -/
def esErrorRed (message : String) (code : Option String) : Bool :=
  ["ECONNRESET", "ETIMEDOUT", "ENOTFOUND", "ECONNREFUSED",
   "EHOSTUNREACH", "ENETUNREACH", "EAI_AGAIN"].any fun codigo =>
    hasSubstr message.data codigo.data || (code == some codigo)

/-- `ManejadorErrores.clasificarError`. -/
def clasificarError (error : JsError) (servicio : Servicio) : ErrorSpotifyTidal :=
  match error with
  | .spotifyTidal e => e
  | .axios response message => clasificarErrorAxios response message servicio
  | .generic message code =>
    if esErrorRed message code then mkErrorRed ("Error de red: " ++ message)
    else ⟨message, "ERROR_DESCONOCIDO", false, .base⟩
  | .other => ⟨"Ocurrió un error desconocido", "ERROR_DESCONOCIDO", false, .base⟩

/-- `ConfiguracionReintento` (ErrorHandler.ts). -/
structure ConfiguracionReintento where
  maxReintentos : Nat
  retrasoBase : ℚ
  retrasoMaximo : ℚ
  multiplicadorRetroceso : ℚ
  variacion : Bool
deriving DecidableEq

/-- `CONFIGURACION_REINTENTO_PREDETERMINADA`. -/
def CONFIGURACION_REINTENTO_PREDETERMINADA : ConfiguracionReintento :=
  ⟨3, 1000, 30000, 2, true⟩

/-- `ManejadorErrores.calcularRetrasoRetroceso`: exponential backoff
capped at the maximum, scaled by a uniform factor in `[0.5, 1.0)` when
jitter is on, floored.  `rand` stands for the `Math.random()` draw. -/
def calcularRetrasoRetroceso (configuracion : ConfiguracionReintento)
    (intento : Nat) (rand : ℚ) : ℚ :=
  let retraso := configuracion.retrasoBase *
    configuracion.multiplicadorRetroceso ^ (intento - 1)
  let retraso := ratMin retraso configuracion.retrasoMaximo
  let retraso := if configuracion.variacion then retraso * (1/2 + rand * (1/2)) else retraso
  (⌊retraso⌋ : ℚ)

/-- The wrapper error thrown after the retry loop exhausts all
attempts with a last retryable error. -/
def errorFinal (configuracion : ConfiguracionReintento)
    (ultimoError : ErrorSpotifyTidal) : ErrorSpotifyTidal :=
  ⟨"Falló después de " ++ toString configuracion.maxReintentos ++
      " intentos. Último error: " ++ ultimoError.mensaje,
    ultimoError.codigo, false, .base⟩

/-- The error thrown when the loop never ran (`maxReintentos = 0`). -/
def errorSinDetalles (configuracion : ConfiguracionReintento) : ErrorSpotifyTidal :=
  ⟨"Falló después de " ++ toString configuracion.maxReintentos ++
      " intentos. No hay detalles de error disponibles.",
    "ERROR_DESCONOCIDO", false, .base⟩

/-- Observable outcome of `ejecutarConReintento`: the returned (or
thrown) value, how many times the wrapped operation ran, and the
sleeps performed between attempts. -/
structure RunOutcome (α : Type) where
  result : Except ErrorSpotifyTidal α
  invocations : Nat
  delays : List ℚ

/-- The retry loop of `ejecutarConReintento`.  `op i` is the outcome
of the i-th invocation (1-based) of the wrapped operation, `fuel` the
number of attempts still allowed (`maxReintentos - intento + 1`),
`rand i` the jitter draw of attempt `i`.  A non-retryable classified
error is rethrown at once; on the last attempt the loop breaks and the
wrapped error is thrown; otherwise the computed delay is slept and the
next attempt runs. -/
def ejecutarConReintentoLoop {α : Type} (configuracion : ConfiguracionReintento)
    (op : Nat → Except JsError α) (servicio : Servicio) (rand : Nat → ℚ) :
    Nat → Nat → List ℚ → RunOutcome α
  | intento, 0, delays => ⟨.error (errorSinDetalles configuracion), intento - 1, delays⟩
  | intento, fuel + 1, delays =>
    match op intento with
    | .ok v => ⟨.ok v, intento, delays⟩
    | .error e =>
      let ultimoError := clasificarError e servicio
      if ultimoError.reintentar = false then ⟨.error ultimoError, intento, delays⟩
      else if fuel = 0 then ⟨.error (errorFinal configuracion ultimoError), intento, delays⟩
      else
        let retraso :=
          match ultimoError.kind with
          | .limiteVelocidad reintentarDespues => reintentarDespues
          | _ => calcularRetrasoRetroceso configuracion intento (rand intento)
        ejecutarConReintentoLoop configuracion op servicio rand
          (intento + 1) fuel (delays ++ [retraso])

/-- `ManejadorErrores.ejecutarConReintento`. -/
def ejecutarConReintento {α : Type} (configuracion : ConfiguracionReintento)
    (op : Nat → Except JsError α) (servicio : Servicio) (rand : Nat → ℚ) :
    RunOutcome α :=
  if configuracion.maxReintentos = 0 then ⟨.error (errorSinDetalles configuracion), 0, []⟩
  else ejecutarConReintentoLoop configuracion op servicio rand 1 configuracion.maxReintentos []

/-! ### Verification-side predicates -/

/-- A character outside the ASCII uppercase range (fixed by
`Char.toLower`). -/
def NotUpper (c : Char) : Prop := ¬(65 ≤ c.toNat ∧ c.toNat ≤ 90)

/-- No two adjacent characters are both whitespace. -/
def NoTwoSpaces (l : List Char) : Prop :=
  l.Chain' fun a b => ¬(isJsSpace a = true ∧ isJsSpace b = true)

/-- Chunks written by an `addTracksInBatches` event trace. -/
def writtenChunks (events : List BatchEvent) : List (List String) :=
  events.filterMap fun e =>
    match e with
    | .write chunk => some chunk
    | .delay _ => none

/-- A target playlist is the first name match for a source playlist:
the target list splits as earlier non-matching playlists, then the
match. -/
def IsFirstNameMatch (tidalPlaylists : List TidalPlaylist) (p : Playlist)
    (m : TidalPlaylist) : Prop :=
  ∃ l1 l2, tidalPlaylists = l1 ++ m :: l2 ∧
    (∀ t ∈ l1, lowerTrim t.title ≠ lowerTrim p.name) ∧
    lowerTrim m.title = lowerTrim p.name

/-- The Tidal-side identical copy of a Spotify track: same title,
artists and album, and the same duration after the seconds↔milliseconds
unit conversion applied by `calculateSimilarity`. -/
def mkTidalCopy (t : Track) : TidalTrack :=
  ⟨0, t.title, ⟨(t.artists.head?.map Artist.name).getD ""⟩,
    some (t.artists.map fun a => ⟨a.name⟩), ⟨t.album.name⟩, t.duration / 1000⟩

/-! ### Concrete fixtures used by witnesses and counterexamples -/

/-- Source playlist with 5 tracks. -/
def playlistW : Playlist := ⟨"p1", "My List", "", [], 5⟩

/-- Target playlist whose trimmed lowercased title matches `playlistW`
and which has fewer tracks. -/
def tidalPlaylistW : TidalPlaylist := ⟨"u1", "  MY list ", 3⟩

/-- An HTTP 429 response. -/
def respRate : AxiosResponse := ⟨429, "", none, none, none⟩

/-- A rate-limit transport error. -/
def errRate : JsError := .axios (some respRate) "rate limited"

/-- Operation failing with a rate limit twice, succeeding the third
time. -/
def opRate : Nat → Except JsError Nat := fun i => if i = 3 then .ok 42 else .error errRate

/-- An HTTP 401 response. -/
def respAuth : AxiosResponse := ⟨401, "Unauthorized", none, none, none⟩

/-- An authentication transport error. -/
def errAuth : JsError := .axios (some respAuth) "unauthorized"

/-- Operation that always fails with an authentication error. -/
def opAuth : Nat → Except JsError Nat := fun _ => .error errAuth

/-- Single-artist source track whose third search strategy finds a
0.95-scoring candidate. -/
def trackC3 : Track := ⟨"s3", "Song (feat. X)", [⟨"a3", "Artist"⟩], ⟨"al3", "abc"⟩, 200000⟩

/-- Candidate scoring exactly 0.95 against `trackC3` (same title and
artist, album at string similarity 2/3, equal durations). -/
def tidalC3 : TidalTrack := ⟨33, "Song (feat. X)", ⟨"Artist"⟩, none, ⟨"abd"⟩, 200⟩

/-- Search capability returning no candidates for the first two calls
and `tidalC3` for the third. -/
def searchC3 : SearchOracle := fun n _ _ => if n = 2 then .ok ⟨[tidalC3], []⟩ else .ok ⟨[], []⟩

/-- Source track whose only candidate scores exactly 0.7 (identical
title and album, equal durations, artists at string similarity 1/4). -/
def trackC9 : Track := ⟨"s9", "Same", [⟨"a9", "aaaa"⟩], ⟨"al9", "Album"⟩, 180000⟩

/-- Candidate scoring exactly 0.7 against `trackC9`. -/
def tidalC9 : TidalTrack := ⟨99, "Same", ⟨"abbb"⟩, none, ⟨"Album"⟩, 180⟩

/-- Search capability always returning `tidalC9`. -/
def searchC9 : SearchOracle := fun _ _ _ => .ok ⟨[tidalC9], []⟩

/-- Source track for the create/update divergence scenario. -/
def trackC1 : Track := ⟨"s1", "aaaa", [⟨"a1", "aaaa"⟩], ⟨"al1", "aaaa"⟩, 200000⟩

/-- Candidate completely dissimilar to `trackC1` (similarity 1/20,
below the 0.7 match threshold). -/
def tidalC1 : TidalTrack := ⟨77, "zzzz", ⟨"zzzz"⟩, none, ⟨"zzzz"⟩, 200⟩

/-- One shared search response: the low-similarity candidate in
`tracks.items` and its id in `data`. -/
def sharedSearchResponse : SearchResponse := ⟨[tidalC1], [⟨"77"⟩]⟩

/-- Deterministic shared search service for both sync paths. -/
def sharedSearch : SimpleSearch := fun _ _ => .ok sharedSearchResponse

/-- The same service consumed through the call-indexed interface. -/
def sharedSearchIndexed : SearchOracle := fun _ artist title => sharedSearch artist title

/-- Verification capability reporting every track as available. -/
def verifyAvailable : VerifyOracle := fun id => some ⟨id, true⟩

/-- Track with zero (unknown) duration and a non-empty artist list. -/
def trackC4 : Track := ⟨"z", "t", [⟨"a", "x"⟩], ⟨"al", "b"⟩, 0⟩

/-- Track with non-zero duration and a non-empty artist list. -/
def trackC4w : Track := ⟨"w", "t", [⟨"a", "x"⟩], ⟨"al", "b"⟩, 240000⟩

/-! ## Theorems -/

/-! ### Character-level lemmas -/

theorem toNat_ofNat_valid (n : Nat) (h : n < 55296) : (Char.ofNat n).toNat = n := by
  rw [Char.ofNat, dif_pos (Or.inl (by exact_mod_cast h))]
  rfl

theorem toLower_toNat_of_upper (c : Char) (h : 65 ≤ c.toNat ∧ c.toNat ≤ 90) :
    (Char.toLower c).toNat = c.toNat + 32 := by
  rw [Char.toLower, if_pos h]
  exact toNat_ofNat_valid _ (by omega)

theorem toLower_eq_self (c : Char) (h : ¬(65 ≤ c.toNat ∧ c.toNat ≤ 90)) :
    Char.toLower c = c := by
  rw [Char.toLower, if_neg h]

theorem notUpper_toLower (c : Char) : NotUpper (Char.toLower c) := by
  by_cases h : 65 ≤ c.toNat ∧ c.toNat ≤ 90
  · rw [NotUpper, toLower_toNat_of_upper c h]
    omega
  · rw [toLower_eq_self c h]
    exact h

theorem word_not_space {c : Char} (h : isWordChar c = true) : isJsSpace c = false := by
  rcases Bool.eq_false_or_eq_true (isJsSpace c) with ht | hf
  · exfalso
    simp only [isWordChar, isJsSpace, Bool.or_eq_true, Bool.and_eq_true,
      decide_eq_true_eq, beq_iff_eq] at h ht
    omega
  · exact hf

theorem space_not_upper {c : Char} (h : isJsSpace c = true) : NotUpper c := by
  simp only [isJsSpace, Bool.or_eq_true, Bool.and_eq_true,
    decide_eq_true_eq, beq_iff_eq] at h
  rw [NotUpper]
  omega

/-! ### `dropWhile`/`trimChars`/`collapseWs` lemmas -/

theorem head?_dropWhile {p : Char → Bool} {l : List Char} {c : Char}
    (h : (l.dropWhile p).head? = some c) : p c = false := by
  induction l with
  | nil => simp [List.dropWhile] at h
  | cons a as ih =>
    rw [List.dropWhile_cons] at h
    by_cases hp : p a
    · rw [if_pos hp] at h
      exact ih h
    · rw [if_neg hp] at h
      simp at h
      rw [← h]
      simpa using hp

theorem dropWhile_eq_self_of_head {p : Char → Bool} {l : List Char}
    (h : ∀ c, l.head? = some c → p c = false) : l.dropWhile p = l := by
  cases l with
  | nil => rfl
  | cons a as =>
    rw [List.dropWhile_cons, if_neg]
    simp [h a rfl]

theorem getLast?_dropWhile_ne_nil {p : Char → Bool} {l : List Char}
    (h : l.dropWhile p ≠ []) : (l.dropWhile p).getLast? = l.getLast? := by
  induction l with
  | nil => simp [List.dropWhile] at h
  | cons a as ih =>
    rw [List.dropWhile_cons]
    by_cases hp : p a
    · rw [List.dropWhile_cons, if_pos hp] at h
      rw [if_pos hp, ih h]
      have hne : as ≠ [] := by
        intro he
        rw [he] at h
        simp [List.dropWhile] at h
      cases as with
      | nil => exact absurd rfl hne
      | cons b bs => simp [List.getLast?_cons_cons]
    · rw [if_neg hp]

theorem trimChars_head_not_space {l : List Char} {c : Char}
    (h : (trimChars l).head? = some c) : isJsSpace c = false := by
  rw [trimChars, List.head?_reverse] at h
  have hne : ((l.dropWhile isJsSpace).reverse.dropWhile isJsSpace) ≠ [] := by
    intro he
    rw [he] at h
    simp at h
  rw [getLast?_dropWhile_ne_nil hne, List.getLast?_eq_head?_reverse,
    List.reverse_reverse] at h
  exact head?_dropWhile h

theorem trimChars_getLast_not_space {l : List Char} {c : Char}
    (h : (trimChars l).getLast? = some c) : isJsSpace c = false := by
  rw [trimChars, List.getLast?_eq_head?_reverse, List.reverse_reverse] at h
  exact head?_dropWhile h

theorem trimChars_eq_self {l : List Char}
    (hh : ∀ c, l.head? = some c → isJsSpace c = false)
    (hl : ∀ c, l.getLast? = some c → isJsSpace c = false) : trimChars l = l := by
  rw [trimChars, dropWhile_eq_self_of_head hh, dropWhile_eq_self_of_head,
    List.reverse_reverse]
  intro c hc
  rw [List.head?_reverse] at hc
  exact hl c hc

theorem trimChars_trimChars (l : List Char) : trimChars (trimChars l) = trimChars l :=
  trimChars_eq_self (fun _ h => trimChars_head_not_space h)
    (fun _ h => trimChars_getLast_not_space h)

theorem mem_trimChars {c : Char} {l : List Char} (h : c ∈ trimChars l) : c ∈ l := by
  rw [trimChars, List.mem_reverse] at h
  have h2 := (List.dropWhile_sublist isJsSpace).subset h
  rw [List.mem_reverse] at h2
  exact (List.dropWhile_sublist isJsSpace).subset h2

theorem mem_collapseWsGo {c : Char} : ∀ (fuel : Nat) (l : List Char), l.length ≤ fuel →
    c ∈ collapseWsGo fuel l → c = ' ' ∨ (c ∈ l ∧ isJsSpace c = false) := by
  intro fuel
  induction fuel with
  | zero =>
    intro l hl h
    have hnil : l = [] := List.length_eq_zero.mp (Nat.le_zero.mp hl)
    subst hnil
    rw [collapseWsGo] at h
    simp at h
  | succ fuel ih =>
    intro l hl h
    cases l with
    | nil =>
      rw [collapseWsGo] at h
      simp at h
    | cons a as =>
      have has : as.length ≤ fuel := by
        simp only [List.length_cons] at hl
        omega
      rw [collapseWsGo] at h
      by_cases ha : isJsSpace a
      · rw [if_pos ha] at h
        rcases List.mem_cons.mp h with hc | hc
        · exact Or.inl hc
        · rcases ih (as.dropWhile isJsSpace)
            (le_trans ((List.dropWhile_sublist isJsSpace).length_le) has) hc with hc2 | hc2
          · exact Or.inl hc2
          · exact Or.inr ⟨List.mem_cons_of_mem a
              ((List.dropWhile_sublist isJsSpace).subset hc2.1), hc2.2⟩
      · rw [if_neg ha] at h
        rcases List.mem_cons.mp h with hc | hc
        · subst hc
          exact Or.inr ⟨List.mem_cons_self _ _, Bool.eq_false_iff.mpr ha⟩
        · rcases ih as has hc with hc2 | hc2
          · exact Or.inl hc2
          · exact Or.inr ⟨List.mem_cons_of_mem a hc2.1, hc2.2⟩

theorem mem_collapseWs {c : Char} {l : List Char} (h : c ∈ collapseWs l) :
    c = ' ' ∨ (c ∈ l ∧ isJsSpace c = false) :=
  mem_collapseWsGo l.length l (le_refl _) h

theorem collapseWsGo_head_not_space : ∀ (fuel : Nat) (l : List Char),
    (∀ d, l.head? = some d → isJsSpace d = false) →
    ∀ c, (collapseWsGo fuel l).head? = some c → isJsSpace c = false := by
  intro fuel l hl c h
  cases fuel with
  | zero =>
    rw [collapseWsGo] at h
    exact hl c h
  | succ fuel =>
    cases l with
    | nil =>
      rw [collapseWsGo] at h
      simp at h
    | cons a as =>
      have ha := hl a rfl
      rw [collapseWsGo, if_neg (by simp [ha])] at h
      simp at h
      rw [← h]
      exact ha

theorem collapseWs_head_not_space {l : List Char}
    (hl : ∀ d, l.head? = some d → isJsSpace d = false) {c : Char}
    (h : (collapseWs l).head? = some c) : isJsSpace c = false :=
  collapseWsGo_head_not_space l.length l hl c h

theorem noTwoSpaces_collapseWsGo : ∀ (fuel : Nat) (l : List Char), l.length ≤ fuel →
    NoTwoSpaces (collapseWsGo fuel l) := by
  intro fuel
  induction fuel with
  | zero =>
    intro l hl
    have hnil : l = [] := List.length_eq_zero.mp (Nat.le_zero.mp hl)
    subst hnil
    rw [collapseWsGo]
    simp [NoTwoSpaces]
  | succ fuel ih =>
    intro l hl
    cases l with
    | nil =>
      rw [collapseWsGo]
      simp [NoTwoSpaces]
    | cons a as =>
      have has : as.length ≤ fuel := by
        simp only [List.length_cons] at hl
        omega
      rw [NoTwoSpaces, collapseWsGo]
      by_cases ha : isJsSpace a
      · rw [if_pos ha]
        refine List.chain'_cons'.mpr ⟨?_, ih (as.dropWhile isJsSpace)
          (le_trans ((List.dropWhile_sublist isJsSpace).length_le) has)⟩
        intro y hy
        have hns := collapseWsGo_head_not_space fuel (as.dropWhile isJsSpace)
          (fun d hd => head?_dropWhile hd) y hy
        intro hcon
        rw [hns] at hcon
        exact absurd hcon.2 (by simp)
      · rw [if_neg ha]
        refine List.chain'_cons'.mpr ⟨?_, ih as has⟩
        intro y _ hcon
        exact ha hcon.1

theorem noTwoSpaces_collapseWs (l : List Char) : NoTwoSpaces (collapseWs l) :=
  noTwoSpaces_collapseWsGo l.length l (le_refl _)

theorem collapseWsGo_eq_self : ∀ (fuel : Nat) (l : List Char),
    (∀ c ∈ l, isJsSpace c = true → c = ' ') → NoTwoSpaces l →
    collapseWsGo fuel l = l := by
  intro fuel
  induction fuel with
  | zero =>
    intro l _ _
    rw [collapseWsGo]
  | succ fuel ih =>
    intro l hsp hch
    cases l with
    | nil => rw [collapseWsGo]
    | cons a as =>
      obtain ⟨hr, hch2⟩ := List.chain'_cons'.mp hch
      rw [collapseWsGo]
      by_cases ha : isJsSpace a = true
      · rw [if_pos ha]
        have hdrop : as.dropWhile isJsSpace = as := by
          apply dropWhile_eq_self_of_head
          intro c hc
          rcases Bool.eq_false_or_eq_true (isJsSpace c) with ht | hf
          · exact absurd ⟨ha, ht⟩ (hr c hc)
          · exact hf
        rw [hdrop, ih as (fun c hc => hsp c (List.mem_cons_of_mem a hc)) hch2,
          ← hsp a (List.mem_cons_self a as) ha]
      · rw [if_neg ha,
          ih as (fun c hc => hsp c (List.mem_cons_of_mem a hc)) hch2]

theorem collapseWs_eq_self {l : List Char}
    (hsp : ∀ c ∈ l, isJsSpace c = true → c = ' ')
    (hch : NoTwoSpaces l) : collapseWs l = l :=
  collapseWsGo_eq_self l.length l hsp hch

theorem noTwoSpaces_trimChars {l : List Char} (h : NoTwoSpaces l) :
    NoTwoSpaces (trimChars l) := by
  have imp : ∀ m : List Char, NoTwoSpaces m →
      m.Chain' (flip fun a b => ¬(isJsSpace a = true ∧ isJsSpace b = true)) := by
    intro m hm
    exact List.Chain'.imp (fun a b hab hcon => hab ⟨hcon.2, hcon.1⟩) hm
  have h1 : NoTwoSpaces (l.dropWhile isJsSpace) :=
    List.Chain'.suffix h (List.dropWhile_suffix isJsSpace)
  have h2 : NoTwoSpaces (l.dropWhile isJsSpace).reverse :=
    List.chain'_reverse.mpr (imp _ h1)
  have h3 : NoTwoSpaces ((l.dropWhile isJsSpace).reverse.dropWhile isJsSpace) :=
    List.Chain'.suffix h2 (List.dropWhile_suffix isJsSpace)
  exact List.chain'_reverse.mpr (imp _ h3)

theorem map_eq_self_of {f : Char → Char} {l : List Char}
    (h : ∀ c ∈ l, f c = c) : l.map f = l := by
  induction l with
  | nil => rfl
  | cons a as ih =>
    rw [List.map_cons, h a (List.mem_cons_self a as),
      ih fun c hc => h c (List.mem_cons_of_mem a hc)]

theorem mem_replacePunct {c : Char} {l : List Char} (h : c ∈ replacePunct l) :
    c = ' ' ∨ (c ∈ l ∧ (isWordChar c || isJsSpace c) = true) := by
  rw [replacePunct, List.mem_map] at h
  obtain ⟨a, ha, hfa⟩ := h
  by_cases hw : (isWordChar a || isJsSpace a) = true
  · rw [if_pos hw] at hfa
    subst hfa
    exact Or.inr ⟨ha, hw⟩
  · rw [if_neg hw] at hfa
    exact Or.inl hfa.symm

theorem mem_normalizeChars {c : Char} {l : List Char} (h : c ∈ normalizeChars l) :
    Char.toLower c = c ∧ (isWordChar c || isJsSpace c) = true ∧
      (isJsSpace c = true → c = ' ') := by
  rw [normalizeChars] at h
  have h1 := mem_trimChars h
  rcases mem_collapseWs h1 with hc | ⟨hc, hns⟩
  · subst hc
    exact ⟨by decide, by decide, fun _ => rfl⟩
  · rcases mem_replacePunct hc with hc2 | ⟨hc2, hws⟩
    · rw [hc2] at hns
      exact absurd hns (by decide)
    · have hmem := mem_trimChars hc2
      rw [List.mem_map] at hmem
      obtain ⟨b, _, hb⟩ := hmem
      have hnu : NotUpper c := hb ▸ notUpper_toLower b
      exact ⟨toLower_eq_self c hnu, hws, fun hsp2 => absurd hsp2 (by simp [hns])⟩

theorem normalizeChars_idem (l : List Char) :
    normalizeChars (normalizeChars l) = normalizeChars l := by
  have hfix : ∀ c ∈ normalizeChars l, Char.toLower c = c :=
    fun c hc => (mem_normalizeChars hc).1
  have hws : ∀ c ∈ normalizeChars l, (isWordChar c || isJsSpace c) = true :=
    fun c hc => (mem_normalizeChars hc).2.1
  have hsp : ∀ c ∈ normalizeChars l, isJsSpace c = true → c = ' ' :=
    fun c hc => (mem_normalizeChars hc).2.2
  have htr : trimChars (normalizeChars l) = normalizeChars l := by
    rw [normalizeChars, trimChars_trimChars]
  have hch : NoTwoSpaces (normalizeChars l) := by
    rw [normalizeChars]
    exact noTwoSpaces_trimChars (noTwoSpaces_collapseWs _)
  have hrp : replacePunct (normalizeChars l) = normalizeChars l := by
    rw [replacePunct]
    exact map_eq_self_of fun c hc => by rw [if_pos (hws c hc)]
  conv_lhs => rw [normalizeChars]
  rw [map_eq_self_of hfix, htr, hrp, collapseWs_eq_self hsp hch, htr]

/-- C8: normalization is idempotent — for every string `s`,
`normalizeString (normalizeString s) = normalizeString s`, where
`normalizeString` lowercases, strips punctuation to single spaces,
collapses whitespace and trims. -/
theorem spec_C8 (s : String) : normalizeString (normalizeString s) = normalizeString s := by
  simp only [normalizeString]
  exact congrArg String.mk (normalizeChars_idem s.data)

/-! ### Batching lemmas (C7) -/

theorem intersperse_cons_cons {α : Type} (sep a b : α) (t : List α) :
    List.intersperse sep (a :: b :: t) = a :: sep :: List.intersperse sep (b :: t) := rfl

theorem writtenChunks_nil : writtenChunks [] = [] := rfl

theorem writtenChunks_write (c : List String) (evs : List BatchEvent) :
    writtenChunks (.write c :: evs) = c :: writtenChunks evs := rfl

theorem writtenChunks_delay (ms : Nat) (evs : List BatchEvent) :
    writtenChunks (.delay ms :: evs) = writtenChunks evs := rfl

theorem addTracksInBatches_cons_le (a : String) (b : List String)
    (h : (a :: b).drop 20 = []) :
    addTracksInBatches (a :: b) = [.write ((a :: b).take 20)] := by
  rw [addTracksInBatches]
  simp [h]

theorem addTracksInBatches_cons_gt (a : String) (b : List String)
    (h : (a :: b).drop 20 ≠ []) :
    addTracksInBatches (a :: b) =
      .write ((a :: b).take 20) :: .delay 1000 :: addTracksInBatches ((a :: b).drop 20) := by
  rw [addTracksInBatches]
  simp [h]
  by_contra hle
  exact h (List.drop_eq_nil_iff.mpr (by simp; omega))

theorem addTracksInBatches_spec (ids : List String) :
    (writtenChunks (addTracksInBatches ids)).length = (ids.length + 19) / 20 ∧
    (∀ c ∈ writtenChunks (addTracksInBatches ids), c ≠ [] ∧ c.length ≤ 20) ∧
    (writtenChunks (addTracksInBatches ids)).flatten = ids ∧
    addTracksInBatches ids =
      List.intersperse (.delay 1000) ((writtenChunks (addTracksInBatches ids)).map .write) := by
  induction ids using addTracksInBatches.induct with
  | case1 => simp [addTracksInBatches, writtenChunks]
  | case2 a b _ h2 =>
    rw [addTracksInBatches_cons_le a b h2]
    have hlen : (a :: b).length ≤ 20 := List.drop_eq_nil_iff.mp h2
    have hlen2 : b.length + 1 ≤ 20 := by simpa using hlen
    have htake : (a :: b).take 20 = a :: b := List.take_of_length_le hlen
    rw [writtenChunks_write, writtenChunks_nil, htake]
    refine ⟨?_, ?_, ?_, ?_⟩
    · simp only [List.length_cons, List.length_nil]
      simp
      omega
    · intro c hc
      rw [List.mem_singleton] at hc
      subst hc
      exact ⟨by simp, by simp [hlen2]⟩
    · simp
    · simp [List.intersperse]
  | case3 a b _ h2 ih =>
    rw [addTracksInBatches_cons_gt a b h2]
    obtain ⟨ih1, ih2, ih3, ih4⟩ := ih
    have hgt : 20 < (a :: b).length := by
      rcases Nat.lt_or_ge 20 (a :: b).length with h | h
      · exact h
      · exact absurd (List.drop_eq_nil_iff.mpr h) h2
    have hrestlen : ((a :: b).drop 20).length = (a :: b).length - 20 := by simp
    rw [writtenChunks_write, writtenChunks_delay]
    refine ⟨?_, ?_, ?_, ?_⟩
    · rw [List.length_cons, ih1, hrestlen]
      simp only [List.length_cons] at hgt ⊢
      omega
    · intro c hc
      rcases List.mem_cons.mp hc with hc1 | hc1
      · subst hc1
        refine ⟨by simp [List.take_cons], ?_⟩
        simp [List.length_take_le]
      · exact ih2 c hc1
    · rw [List.flatten_cons, ih3, List.take_append_drop]
    · have hws : writtenChunks (addTracksInBatches ((a :: b).drop 20)) ≠ [] := by
        intro hnil
        rw [hnil] at ih1
        simp only [List.length_nil] at ih1
        rw [hrestlen] at ih1
        simp only [List.length_cons] at hgt ih1
        omega
      cases hcases : writtenChunks (addTracksInBatches ((a :: b).drop 20)) with
      | nil => exact absurd hcases hws
      | cons w ws2 =>
        rw [hcases] at ih4
        simp only [List.map_cons] at ih4
        simp only [List.map_cons]
        rw [intersperse_cons_cons, ← ih4]

/-- C7: for every non-empty id list, `addTracksInBatches` (batch size
20) issues exactly `ceil (n / 20)` writes, every written chunk is
non-empty with at most 20 ids, the chunks concatenate to the original
list in order, and the 1000 ms inter-batch delay occurs exactly
between consecutive writes, never after the final one. -/
theorem spec_C7 (ids : List String) (_hne : ids ≠ []) :
    (writtenChunks (addTracksInBatches ids)).length = (ids.length + 19) / 20 ∧
    (∀ c ∈ writtenChunks (addTracksInBatches ids), c ≠ [] ∧ c.length ≤ 20) ∧
    (writtenChunks (addTracksInBatches ids)).flatten = ids ∧
    addTracksInBatches ids =
      List.intersperse (.delay 1000) ((writtenChunks (addTracksInBatches ids)).map .write) :=
  addTracksInBatches_spec ids

theorem spec_C7_witness :
    (["a", "b", "c"] : List String) ≠ [] ∧
    ((writtenChunks (addTracksInBatches ["a", "b", "c"])).length = (3 + 19) / 20 ∧
     (∀ c ∈ writtenChunks (addTracksInBatches ["a", "b", "c"]), c ≠ [] ∧ c.length ≤ 20) ∧
     (writtenChunks (addTracksInBatches ["a", "b", "c"])).flatten = ["a", "b", "c"] ∧
     addTracksInBatches ["a", "b", "c"] =
       List.intersperse (.delay 1000)
         ((writtenChunks (addTracksInBatches ["a", "b", "c"])).map .write)) :=
  ⟨by decide, spec_C7 ["a", "b", "c"] (by decide)⟩

/-! ### Planner lemmas (C2) -/

theorem find?_split {α : Type} {p : α → Bool} {l : List α} {m : α}
    (h : l.find? p = some m) :
    ∃ l1 l2, l = l1 ++ m :: l2 ∧ (∀ t ∈ l1, p t = false) ∧ p m = true := by
  induction l with
  | nil => simp at h
  | cons a as ih =>
    by_cases hp : p a
    · rw [List.find?_cons_of_pos _ hp] at h
      injection h with h
      subst h
      exact ⟨[], as, rfl, by simp, hp⟩
    · rw [List.find?_cons_of_neg _ hp] at h
      obtain ⟨l1, l2, hsplit, hall, hm⟩ := ih h
      exact ⟨a :: l1, l2, by rw [hsplit, List.cons_append], by
        intro t ht
        rcases List.mem_cons.mp ht with ht1 | ht1
        · subst ht1
          exact Bool.eq_false_iff.mpr hp
        · exact hall t ht1, hm⟩

theorem find?_append_all_false {α : Type} {p : α → Bool} {l1 : List α}
    (h : ∀ t ∈ l1, p t = false) (rest : List α) :
    (l1 ++ rest).find? p = rest.find? p := by
  induction l1 with
  | nil => rfl
  | cons a as ih =>
    rw [List.cons_append, List.find?_cons_of_neg, ih]
    · intro t ht
      exact h t (List.mem_cons_of_mem a ht)
    · simp [h a (List.mem_cons_self a as)]

theorem compareOne_empty {tp : List TidalPlaylist} {p : Playlist}
    (h : p.totalTracks = 0) :
    compareOnePlaylist tp p = ⟨p, none, .skip, "Playlist is empty"⟩ := by
  rw [compareOnePlaylist, if_pos h]

theorem compareOne_none {tp : List TidalPlaylist} {p : Playlist}
    (h : p.totalTracks ≠ 0)
    (hf : tp.find? (fun t => lowerTrim t.title == lowerTrim p.name) = none) :
    compareOnePlaylist tp p = ⟨p, none, .create, "Playlist does not exist in Tidal"⟩ := by
  rw [compareOnePlaylist, if_neg h, hf]

theorem compareOne_some {tp : List TidalPlaylist} {p : Playlist} {m : TidalPlaylist}
    (h : p.totalTracks ≠ 0)
    (hf : tp.find? (fun t => lowerTrim t.title == lowerTrim p.name) = some m) :
    compareOnePlaylist tp p =
      if m.numberOfTracks < p.totalTracks then
        ⟨p, some m, .update,
          "Tidal playlist has " ++ toString m.numberOfTracks ++
            " tracks, Spotify has " ++ toString p.totalTracks⟩
      else ⟨p, some m, .skip, "Tidal playlist appears to be up to date"⟩ := by
  rw [compareOnePlaylist, if_neg h, hf]

/-- C2: the planner emits one comparison per source playlist in input
order (the i-th comparison carries the i-th source playlist), matching
targets by case-insensitive whitespace-trimmed exact name equality
with the first match winning, and decides: 0 source tracks → skip; no
name match → create; first name match with strictly fewer target
tracks → update; otherwise → skip. -/
theorem spec_C2 (sp : List Playlist) (tp : List TidalPlaylist) (i : Nat) (p : Playlist)
    (hp : sp[i]? = some p) :
    (comparePlaylistsForSync sp tp).length = sp.length ∧
    ∃ c, (comparePlaylistsForSync sp tp)[i]? = some c ∧ c.spotifyPlaylist = p ∧
      (p.totalTracks = 0 → c.action = .skip) ∧
      (p.totalTracks ≠ 0 →
        (∀ t ∈ tp, lowerTrim t.title ≠ lowerTrim p.name) → c.action = .create) ∧
      (p.totalTracks ≠ 0 → ∀ m, IsFirstNameMatch tp p m →
        c.tidalPlaylist = some m ∧
        (m.numberOfTracks < p.totalTracks → c.action = .update) ∧
        (p.totalTracks ≤ m.numberOfTracks → c.action = .skip)) := by
  refine ⟨List.length_map sp _, compareOnePlaylist tp p, ?_, ?_, ?_, ?_, ?_⟩
  · rw [comparePlaylistsForSync, List.getElem?_map, hp]
    rfl
  · rw [compareOnePlaylist]
    split
    · rfl
    · split <;> first | rfl | (split <;> rfl)
  · intro h
    rw [compareOne_empty h]
  · intro h hnone
    rw [compareOne_none h (List.find?_eq_none.mpr fun t ht => by
      simp only [beq_iff_eq]
      exact fun he => hnone t ht (by exact_mod_cast he))]
  · intro h m hm
    obtain ⟨l1, l2, hsplit, hall, hmatch⟩ := hm
    have hf : tp.find? (fun t => lowerTrim t.title == lowerTrim p.name) = some m := by
      rw [hsplit, find?_append_all_false, List.find?_cons_of_pos]
      · simp [hmatch]
      · intro t ht
        simp only [beq_eq_false_iff_ne, ne_eq]
        exact hall t ht
    rw [compareOne_some h hf]
    by_cases hlt : m.numberOfTracks < p.totalTracks
    · rw [if_pos hlt]
      exact ⟨rfl, fun _ => rfl, fun hge => absurd hlt (by omega)⟩
    · rw [if_neg hlt]
      exact ⟨rfl, fun hl => absurd hl hlt, fun _ => rfl⟩

theorem spec_C2_witness :
    ([playlistW][0]? = some playlistW) ∧
    ((comparePlaylistsForSync [playlistW] [tidalPlaylistW]).length = [playlistW].length ∧
     ∃ c, (comparePlaylistsForSync [playlistW] [tidalPlaylistW])[0]? = some c ∧
       c.spotifyPlaylist = playlistW ∧
       (playlistW.totalTracks = 0 → c.action = .skip) ∧
       (playlistW.totalTracks ≠ 0 →
         (∀ t ∈ [tidalPlaylistW], lowerTrim t.title ≠ lowerTrim playlistW.name) →
           c.action = .create) ∧
       (playlistW.totalTracks ≠ 0 → ∀ m, IsFirstNameMatch [tidalPlaylistW] playlistW m →
         c.tidalPlaylist = some m ∧
         (m.numberOfTracks < playlistW.totalTracks → c.action = .update) ∧
         (playlistW.totalTracks ≤ m.numberOfTracks → c.action = .skip))) :=
  ⟨rfl, spec_C2 [playlistW] [tidalPlaylistW] 0 playlistW rfl⟩

/-! ### Full-sync summary lemmas (C10) -/

theorem performFullSyncStep_fields (dc : Playlist → PlaylistSyncResult)
    (du : Playlist → Option TidalPlaylist → PlaylistSyncResult)
    (acc : SyncSummary) (c : PlaylistComparison) :
    (performFullSyncStep dc du acc c).results = acc.results ++ [resultFor dc du c] ∧
    (performFullSyncStep dc du acc c).totalPlaylists = acc.totalPlaylists ∧
    (performFullSyncStep dc du acc c).playlistsCreated +
      (performFullSyncStep dc du acc c).playlistsUpdated +
      (performFullSyncStep dc du acc c).playlistsSkipped =
      acc.playlistsCreated + acc.playlistsUpdated + acc.playlistsSkipped + 1 ∧
    (performFullSyncStep dc du acc c).totalTracksProcessed =
      acc.totalTracksProcessed + (resultFor dc du c).totalTracks ∧
    (performFullSyncStep dc du acc c).totalTracksSuccessful =
      acc.totalTracksSuccessful + (resultFor dc du c).successfulTracks ∧
    (performFullSyncStep dc du acc c).totalTracksFailed =
      acc.totalTracksFailed + (resultFor dc du c).failedTracks := by
  rcases c with ⟨p, t, act, r⟩
  cases act <;> simp [performFullSyncStep, resultFor] <;> omega

theorem performFullSync_foldl_inv (dc : Playlist → PlaylistSyncResult)
    (du : Playlist → Option TidalPlaylist → PlaylistSyncResult)
    (comps : List PlaylistComparison) :
    ∀ acc : SyncSummary,
    (comps.foldl (performFullSyncStep dc du) acc).results =
      acc.results ++ comps.map (resultFor dc du) ∧
    (comps.foldl (performFullSyncStep dc du) acc).totalPlaylists = acc.totalPlaylists ∧
    (comps.foldl (performFullSyncStep dc du) acc).playlistsCreated +
      (comps.foldl (performFullSyncStep dc du) acc).playlistsUpdated +
      (comps.foldl (performFullSyncStep dc du) acc).playlistsSkipped =
      acc.playlistsCreated + acc.playlistsUpdated + acc.playlistsSkipped + comps.length ∧
    (comps.foldl (performFullSyncStep dc du) acc).totalTracksProcessed =
      acc.totalTracksProcessed +
        (comps.map fun c => (resultFor dc du c).totalTracks).sum ∧
    (comps.foldl (performFullSyncStep dc du) acc).totalTracksSuccessful =
      acc.totalTracksSuccessful +
        (comps.map fun c => (resultFor dc du c).successfulTracks).sum ∧
    (comps.foldl (performFullSyncStep dc du) acc).totalTracksFailed =
      acc.totalTracksFailed +
        (comps.map fun c => (resultFor dc du c).failedTracks).sum := by
  induction comps with
  | nil => intro acc; simp
  | cons c cs ih =>
    intro acc
    rw [List.foldl_cons]
    obtain ⟨i1, i2, i3, i4, i5, i6⟩ := ih (performFullSyncStep dc du acc c)
    obtain ⟨f1, f2, f3, f4, f5, f6⟩ := performFullSyncStep_fields dc du acc c
    refine ⟨?_, ?_, ?_, ?_, ?_, ?_⟩
    · rw [i1, f1, List.map_cons]
      simp
    · rw [i2, f2]
    · rw [i3, f3, List.length_cons]
      omega
    · rw [i4, f4, List.map_cons, List.sum_cons]
      omega
    · rw [i5, f5, List.map_cons, List.sum_cons]
      omega
    · rw [i6, f6, List.map_cons, List.sum_cons]
      omega

/-- C10: every summary produced by `performFullSync` has one result
per planned comparison, in plan order; the created/updated/skipped
counters sum to `totalPlaylists`; and the three track totals equal the
sums of the corresponding per-result fields. -/
theorem spec_C10 (dc : Playlist → PlaylistSyncResult)
    (du : Playlist → Option TidalPlaylist → PlaylistSyncResult)
    (sp : List Playlist) (tp : List TidalPlaylist) :
    (performFullSync dc du sp tp).results =
      (comparePlaylistsForSync sp tp).map (resultFor dc du) ∧
    (performFullSync dc du sp tp).results.length =
      (performFullSync dc du sp tp).totalPlaylists ∧
    (performFullSync dc du sp tp).playlistsCreated +
      (performFullSync dc du sp tp).playlistsUpdated +
      (performFullSync dc du sp tp).playlistsSkipped =
      (performFullSync dc du sp tp).totalPlaylists ∧
    (performFullSync dc du sp tp).totalTracksProcessed =
      ((performFullSync dc du sp tp).results.map PlaylistSyncResult.totalTracks).sum ∧
    (performFullSync dc du sp tp).totalTracksSuccessful =
      ((performFullSync dc du sp tp).results.map PlaylistSyncResult.successfulTracks).sum ∧
    (performFullSync dc du sp tp).totalTracksFailed =
      ((performFullSync dc du sp tp).results.map PlaylistSyncResult.failedTracks).sum := by
  obtain ⟨i1, i2, i3, i4, i5, i6⟩ := performFullSync_foldl_inv dc du
    (comparePlaylistsForSync sp tp)
    { totalPlaylists := (comparePlaylistsForSync sp tp).length
      playlistsCreated := 0
      playlistsUpdated := 0
      playlistsSkipped := 0
      totalTracksProcessed := 0
      totalTracksSuccessful := 0
      totalTracksFailed := 0
      results := [] }
  rw [performFullSync]
  refine ⟨by rw [i1]; simp, ?_, ?_, ?_, ?_, ?_⟩
  · rw [i1, i2]
    simp
  · rw [i2, i3]
    simp
  · rw [i4, i1]
    simp [List.map_map]
    rfl
  · rw [i5, i1]
    simp [List.map_map]
    rfl
  · rw [i6, i1]
    simp [List.map_map]
    rfl

/-! ### Retry-executor lemmas (C5, C6) -/

theorem loop_ok {α : Type} (cfg : ConfiguracionReintento) (op : Nat → Except JsError α)
    (s : Servicio) (rand : Nat → ℚ) (intento fuel : Nat) (delays : List ℚ) (v : α)
    (h : op intento = .ok v) :
    ejecutarConReintentoLoop cfg op s rand intento (fuel + 1) delays =
      ⟨.ok v, intento, delays⟩ := by
  rw [ejecutarConReintentoLoop, h]

theorem loop_noretry {α : Type} (cfg : ConfiguracionReintento) (op : Nat → Except JsError α)
    (s : Servicio) (rand : Nat → ℚ) (intento fuel : Nat) (delays : List ℚ) (e : JsError)
    (h : op intento = .error e) (hr : (clasificarError e s).reintentar = false) :
    ejecutarConReintentoLoop cfg op s rand intento (fuel + 1) delays =
      ⟨.error (clasificarError e s), intento, delays⟩ := by
  rw [ejecutarConReintentoLoop, h]
  simp [hr]

theorem loop_retry_rateLimit {α : Type} (cfg : ConfiguracionReintento)
    (op : Nat → Except JsError α) (s : Servicio) (rand : Nat → ℚ)
    (intento fuel : Nat) (delays : List ℚ) (e : JsError) (rd : ℚ)
    (h : op intento = .error e) (hr : (clasificarError e s).reintentar = true)
    (hk : (clasificarError e s).kind = .limiteVelocidad rd) :
    ejecutarConReintentoLoop cfg op s rand intento (fuel + 2) delays =
      ejecutarConReintentoLoop cfg op s rand (intento + 1) (fuel + 1) (delays ++ [rd]) := by
  rw [show fuel + 2 = (fuel + 1) + 1 from rfl, ejecutarConReintentoLoop, h]
  simp [hr, hk]

/-- C5: an operation that fails with a rate-limit (retryable) error on
its first two invocations and succeeds on the third, run under the
default configuration (`maxReintentos = 3`), returns the third
invocation's success value and invokes the operation exactly 3
times. -/
theorem spec_C5 {α : Type} (op : Nat → Except JsError α) (e1 e2 : JsError) (v : α)
    (s : Servicio) (rand : Nat → ℚ) (r1 r2 : ℚ)
    (h1 : op 1 = .error e1) (h2 : op 2 = .error e2) (h3 : op 3 = .ok v)
    (hk1 : (clasificarError e1 s).kind = .limiteVelocidad r1)
    (hr1 : (clasificarError e1 s).reintentar = true)
    (hk2 : (clasificarError e2 s).kind = .limiteVelocidad r2)
    (hr2 : (clasificarError e2 s).reintentar = true) :
    (ejecutarConReintento CONFIGURACION_REINTENTO_PREDETERMINADA op s rand).result = .ok v ∧
    (ejecutarConReintento CONFIGURACION_REINTENTO_PREDETERMINADA op s rand).invocations = 3 := by
  rw [ejecutarConReintento, if_neg (by decide)]
  have hmax : CONFIGURACION_REINTENTO_PREDETERMINADA.maxReintentos = 1 + 2 := rfl
  rw [hmax, loop_retry_rateLimit _ op s rand 1 1 [] e1 r1 h1 hr1 hk1,
    show (1 : Nat) + 1 = 0 + 2 from rfl,
    loop_retry_rateLimit _ op s rand 2 0 ([] ++ [r1]) e2 r2 h2 hr2 hk2,
    loop_ok _ op s rand 3 0 _ v h3]
  exact ⟨rfl, rfl⟩

theorem spec_C5_witness :
    (opRate 1 = .error errRate ∧ opRate 2 = .error errRate ∧ opRate 3 = .ok 42 ∧
     (clasificarError errRate .tidal).kind = .limiteVelocidad 5000 ∧
     (clasificarError errRate .tidal).reintentar = true) ∧
    ((ejecutarConReintento CONFIGURACION_REINTENTO_PREDETERMINADA opRate .tidal
        (fun _ => 0)).result = .ok 42 ∧
     (ejecutarConReintento CONFIGURACION_REINTENTO_PREDETERMINADA opRate .tidal
        (fun _ => 0)).invocations = 3) :=
  ⟨⟨rfl, rfl, rfl, rfl, rfl⟩,
   spec_C5 opRate errRate errRate 42 .tidal (fun _ => 0) 5000 5000
     rfl rfl rfl rfl rfl rfl rfl⟩

theorem clientError_not_retryable (resp : AxiosResponse) (msg : String) (s : Servicio)
    (hlo : 400 ≤ resp.status) (hhi : resp.status < 500) (hne : resp.status ≠ 429) :
    (clasificarError (.axios (some resp) msg) s).reintentar = false := by
  rw [clasificarError, clasificarErrorAxios]
  rw [if_neg hne]
  by_cases h401 : resp.status = 401
  · rw [if_pos h401]
    rfl
  · rw [if_neg h401]
    by_cases h403 : resp.status = 403
    · rw [if_pos h403]
      rfl
    · rw [if_neg h403]
      by_cases h400 : resp.status = 400 ∧ (resp.dataError = some "invalid_client" ∨
          resp.dataError = some "invalid_request" ∨ resp.dataError = some "invalid_grant" ∨
          resp.dataError = some "unsupported_grant_type")
      · rw [if_pos h400]
        rfl
      · rw [if_neg h400, if_neg (by omega : ¬(resp.status ≠ 0 ∧ 500 ≤ resp.status)),
          if_pos (⟨by omega, hlo, hhi⟩ : resp.status ≠ 0 ∧ 400 ≤ resp.status ∧ resp.status < 500)]

/-- C6: an operation whose first failure is an HTTP client error
(status in 400–499 and not 429 — this includes the 401/403 and
OAuth-payload authentication errors and the malformed-request client
errors) is classified as non-retryable, is invoked exactly once, the
classified error is rethrown immediately, and no backoff delay is
slept. -/
theorem spec_C6 {α : Type} (op : Nat → Except JsError α) (resp : AxiosResponse)
    (msg : String) (s : Servicio) (rand : Nat → ℚ)
    (h1 : op 1 = .error (.axios (some resp) msg))
    (hlo : 400 ≤ resp.status) (hhi : resp.status < 500) (hne : resp.status ≠ 429) :
    (clasificarError (.axios (some resp) msg) s).reintentar = false ∧
    ejecutarConReintento CONFIGURACION_REINTENTO_PREDETERMINADA op s rand =
      ⟨.error (clasificarError (.axios (some resp) msg) s), 1, []⟩ := by
  have hret := clientError_not_retryable resp msg s hlo hhi hne
  refine ⟨hret, ?_⟩
  rw [ejecutarConReintento, if_neg (by decide)]
  have hmax : CONFIGURACION_REINTENTO_PREDETERMINADA.maxReintentos = 2 + 1 := rfl
  rw [hmax, loop_noretry _ op s rand 1 2 [] _ h1 hret]

theorem spec_C6_witness :
    (opAuth 1 = .error (.axios (some respAuth) "unauthorized") ∧
     400 ≤ respAuth.status ∧ respAuth.status < 500 ∧ respAuth.status ≠ 429) ∧
    ((clasificarError (.axios (some respAuth) "unauthorized") .spotify).reintentar = false ∧
     ejecutarConReintento CONFIGURACION_REINTENTO_PREDETERMINADA opAuth .spotify (fun _ => 0) =
       ⟨.error (clasificarError (.axios (some respAuth) "unauthorized") .spotify), 1, []⟩) :=
  ⟨⟨rfl, by decide, by decide, by decide⟩,
   spec_C6 opAuth respAuth "unauthorized" .spotify (fun _ => 0) rfl
     (by decide) (by decide) (by decide)⟩

/-! ### Similarity-scoring lemmas (C4) -/

theorem ratMax_eq_max (a b : ℚ) : ratMax a b = max a b := by
  rw [ratMax]
  split
  · exact (max_eq_right (le_of_lt (by assumption))).symm
  · exact (max_eq_left (le_of_not_lt (by assumption))).symm

theorem stringSim_self (x : List Char) : calculateStringSimilarity x x = 1 := by
  rw [calculateStringSimilarity, if_pos rfl]

theorem stringSim_le_one (x y : List Char) : calculateStringSimilarity x y ≤ 1 := by
  rw [calculateStringSimilarity]
  split
  · exact le_refl 1
  · split
    · norm_num
    · have hd : (0 : ℚ) ≤ (levenshteinDistance x y : ℚ) / ((max x.length y.length : Nat) : ℚ) := by
        positivity
      linarith

theorem foldl_max_le {β : Type} (f : β → ℚ) (l : List β) (bound : ℚ) :
    ∀ init : ℚ, init ≤ bound → (∀ b ∈ l, f b ≤ bound) →
      l.foldl (fun m b => max m (f b)) init ≤ bound := by
  induction l with
  | nil => intro init hi _; simpa using hi
  | cons a as ih =>
    intro init hi hf
    rw [List.foldl_cons]
    exact ih _ (max_le hi (hf a (List.mem_cons_self a as)))
      fun b hb => hf b (List.mem_cons_of_mem a hb)

theorem le_foldl_max {β : Type} (f : β → ℚ) (l : List β) :
    ∀ init : ℚ, init ≤ l.foldl (fun m b => max m (f b)) init := by
  induction l with
  | nil => intro init; simp
  | cons a as ih =>
    intro init
    rw [List.foldl_cons]
    exact le_trans (le_max_left init (f a)) (ih _)

theorem foldl_max_ge_elem {β : Type} (f : β → ℚ) (l : List β) {b : β} (hb : b ∈ l) :
    ∀ init : ℚ, f b ≤ l.foldl (fun m b2 => max m (f b2)) init := by
  induction l with
  | nil => simp at hb
  | cons a as ih =>
    intro init
    rw [List.foldl_cons]
    rcases List.mem_cons.mp hb with h1 | h1
    · subst h1
      exact le_trans (le_max_right init (f b)) (le_foldl_max f as _)
    · exact ih h1 _

theorem le_foldl_of_mono {β : Type} (g : ℚ → β → ℚ) (hmono : ∀ m a, m ≤ g m a) :
    ∀ (l : List β) (init : ℚ), init ≤ l.foldl g init := by
  intro l
  induction l with
  | nil => intro init; simp
  | cons a as ih =>
    intro init
    rw [List.foldl_cons]
    exact le_trans (hmono init a) (ih _)

theorem foldl_le_bound {β : Type} (g : ℚ → β → ℚ) (bound : ℚ)
    (hb : ∀ m a, m ≤ bound → g m a ≤ bound) :
    ∀ (l : List β) (init : ℚ), init ≤ bound → l.foldl g init ≤ bound := by
  intro l
  induction l with
  | nil => intro init h; simpa using h
  | cons a as ih =>
    intro init h
    rw [List.foldl_cons]
    exact ih _ (hb init a h)

theorem artistSim_self_copy (l : List Artist) (h : l ≠ []) :
    calculateArtistSimilarity l (l.map fun a => (⟨a.name⟩ : TidalArtist)) = 1 := by
  rw [calculateArtistSimilarity, if_neg (by simp [h])]
  simp only [ratMax_eq_max]
  set ta := l.map fun a => (⟨a.name⟩ : TidalArtist) with hta
  set g : ℚ → Artist → ℚ := fun m a => ta.foldl (fun m2 b =>
    max m2 (calculateStringSimilarity (normalizeChars a.name.data)
      (normalizeChars b.name.data))) m with hg
  have hmono : ∀ m a, m ≤ g m a := fun m a => le_foldl_max _ ta m
  have hbound : ∀ m a, m ≤ 1 → g m a ≤ 1 := fun m a hm =>
    foldl_max_le _ ta 1 m hm fun b _ => stringSim_le_one _ _
  have hone : ∀ (a : Artist), a ∈ l → ∀ m : ℚ, 1 ≤ g m a := by
    intro a ha m
    have hmem : (⟨a.name⟩ : TidalArtist) ∈ ta := by
      rw [hta]
      exact List.mem_map_of_mem _ ha
    have hgoal := foldl_max_ge_elem (fun b => calculateStringSimilarity
      (normalizeChars a.name.data) (normalizeChars b.name.data)) ta hmem m
    rw [stringSim_self] at hgoal
    exact hgoal
  have hub : l.foldl g 0 ≤ 1 := foldl_le_bound g 1 hbound l 0 (by norm_num)
  have hlb : 1 ≤ l.foldl g 0 := by
    cases l with
    | nil => exact absurd rfl h
    | cons a as =>
      rw [List.foldl_cons]
      exact le_trans (hone a (List.mem_cons_self a as) 0)
        (le_foldl_of_mono g hmono as _)
  exact le_antisymm hub hlb

theorem durationSim_self (d : ℚ) (h : d ≠ 0) : calculateDurationSimilarity d d = 1 := by
  rw [calculateDurationSimilarity, if_neg (by simp [h])]
  simp only [sub_self]
  rw [show ratAbs 0 = 0 from rfl]
  simp only [zero_div]
  norm_num

/-- C4 (amended): scoring a track with a non-empty artist list and a
non-zero duration against an identical copy of itself (same title,
artists and album, same duration after unit normalization) yields a
composite score of exactly 1.0.  (With a zero duration the duration
component is the neutral 0.5 and the score is 0.975 — see the
counterexample.) -/
theorem spec_C4 (t : Track) (hart : t.artists ≠ []) (hdur : t.duration ≠ 0) :
    calculateSimilarity t (mkTidalCopy t) = 1 := by
  rw [calculateSimilarity]
  simp only [mkTidalCopy]
  rw [stringSim_self, stringSim_self]
  have hd : t.duration / 1000 * 1000 = t.duration :=
    div_mul_cancel₀ t.duration (by norm_num)
  rw [hd, durationSim_self t.duration hdur, artistSim_self_copy t.artists hart]
  norm_num [ratMin, ratMax]


/-! ### Similarity-evaluation helper lemmas -/

theorem stringSim_of_eq {x y : List Char} (h : x = y) :
    calculateStringSimilarity x y = 1 := by
  rw [h, calculateStringSimilarity, if_pos rfl]

theorem stringSim_eval {x y : List Char} (hne : x ≠ y) (hx : x.length ≠ 0)
    (hy : y.length ≠ 0) :
    calculateStringSimilarity x y =
      1 - (levenshteinDistance x y : ℚ) / ((max x.length y.length : Nat) : ℚ) := by
  rw [calculateStringSimilarity, if_neg hne, if_neg (by simp [hx, hy])]

theorem artistSim_single (a : Artist) (b : TidalArtist) :
    calculateArtistSimilarity [a] [b] =
      ratMax 0 (calculateStringSimilarity (normalizeChars a.name.data)
        (normalizeChars b.name.data)) := by
  rw [calculateArtistSimilarity, if_neg (by simp)]
  rfl

theorem durationSim_zero {d1 d2 : ℚ} (h : d1 = 0 ∨ d2 = 0) :
    calculateDurationSimilarity d1 d2 = 1/2 := by
  rw [calculateDurationSimilarity, if_pos h]

theorem calcSim_eval (sp : Track) (ti : TidalTrack) (t a alb d : ℚ)
    (ht : calculateStringSimilarity (normalizeChars sp.title.data)
      (normalizeChars ti.title.data) = t)
    (ha : calculateArtistSimilarity sp.artists
      (match ti.artists with
       | some l => l
       | none => [ti.artist]) = a)
    (halb : calculateStringSimilarity (normalizeChars sp.album.name.data)
      (normalizeChars ti.album.title.data) = alb)
    (hd : calculateDurationSimilarity sp.duration (ti.duration * 1000) = d) :
    calculateSimilarity sp ti =
      ratMin 1 (ratMax 0 (t * (4/10) + a * (4/10) + alb * (15/100) + d * (5/100))) := by
  rw [calculateSimilarity, ht, ha, halb, hd]

theorem calcSim_trackC3 : calculateSimilarity trackC3 tidalC3 = 95/100 := by
  rw [calcSim_eval trackC3 tidalC3 1 1 (2/3) 1]
  · norm_num [ratMin, ratMax]
  · exact stringSim_of_eq (by decide)
  · rw [show trackC3.artists = [⟨"a3", "Artist"⟩] from rfl]
    rw [show (match tidalC3.artists with
        | some l => l
        | none => [tidalC3.artist]) = [⟨"Artist"⟩] from rfl]
    rw [artistSim_single, stringSim_of_eq (by decide)]
    norm_num [ratMax]
  · rw [stringSim_eval (by decide) (by decide) (by decide)]
    rw [show levenshteinDistance (normalizeChars trackC3.album.name.data)
        (normalizeChars tidalC3.album.title.data) = 1 from by decide]
    rw [show (max (normalizeChars trackC3.album.name.data).length
        (normalizeChars tidalC3.album.title.data).length : Nat) = 3 from by decide]
    norm_num
  · rw [show tidalC3.duration * 1000 = trackC3.duration from by norm_num [tidalC3, trackC3]]
    exact durationSim_self _ (by norm_num [trackC3])

theorem calcSim_trackC9 : calculateSimilarity trackC9 tidalC9 = 7/10 := by
  rw [calcSim_eval trackC9 tidalC9 1 (1/4) 1 1]
  · norm_num [ratMin, ratMax]
  · exact stringSim_of_eq (by decide)
  · rw [show trackC9.artists = [⟨"a9", "aaaa"⟩] from rfl]
    rw [show (match tidalC9.artists with
        | some l => l
        | none => [tidalC9.artist]) = [⟨"abbb"⟩] from rfl]
    rw [artistSim_single, stringSim_eval (by decide) (by decide) (by decide)]
    rw [show levenshteinDistance (normalizeChars ("aaaa" : String).data)
        (normalizeChars ("abbb" : String).data) = 3 from by decide]
    rw [show (max (normalizeChars ("aaaa" : String).data).length
        (normalizeChars ("abbb" : String).data).length : Nat) = 4 from by decide]
    norm_num [ratMax]
  · exact stringSim_of_eq (by decide)
  · rw [show tidalC9.duration * 1000 = trackC9.duration from by norm_num [tidalC9, trackC9]]
    exact durationSim_self _ (by norm_num [trackC9])

theorem calcSim_trackC1 : calculateSimilarity trackC1 tidalC1 = 1/20 := by
  rw [calcSim_eval trackC1 tidalC1 0 0 0 1]
  · norm_num [ratMin, ratMax]
  · rw [stringSim_eval (by decide) (by decide) (by decide)]
    rw [show levenshteinDistance (normalizeChars trackC1.title.data)
        (normalizeChars tidalC1.title.data) = 4 from by decide]
    rw [show (max (normalizeChars trackC1.title.data).length
        (normalizeChars tidalC1.title.data).length : Nat) = 4 from by decide]
    norm_num
  · rw [show trackC1.artists = [⟨"a1", "aaaa"⟩] from rfl]
    rw [show (match tidalC1.artists with
        | some l => l
        | none => [tidalC1.artist]) = [⟨"zzzz"⟩] from rfl]
    rw [artistSim_single, stringSim_eval (by decide) (by decide) (by decide)]
    rw [show levenshteinDistance (normalizeChars ("aaaa" : String).data)
        (normalizeChars ("zzzz" : String).data) = 4 from by decide]
    rw [show (max (normalizeChars ("aaaa" : String).data).length
        (normalizeChars ("zzzz" : String).data).length : Nat) = 4 from by decide]
    norm_num [ratMax]
  · rw [stringSim_eval (by decide) (by decide) (by decide)]
    rw [show levenshteinDistance (normalizeChars trackC1.album.name.data)
        (normalizeChars tidalC1.album.title.data) = 4 from by decide]
    rw [show (max (normalizeChars trackC1.album.name.data).length
        (normalizeChars tidalC1.album.title.data).length : Nat) = 4 from by decide]
    norm_num
  · rw [show tidalC1.duration * 1000 = trackC1.duration from by norm_num [tidalC1, trackC1]]
    exact durationSim_self _ (by norm_num [trackC1])

theorem calcSim_trackC4 : calculateSimilarity trackC4 (mkTidalCopy trackC4) = 39/40 := by
  rw [calcSim_eval trackC4 (mkTidalCopy trackC4) 1 1 1 (1/2)]
  · norm_num [ratMin, ratMax]
  · exact stringSim_of_eq (by decide)
  · rw [show trackC4.artists = [⟨"a", "x"⟩] from rfl]
    rw [show (match (mkTidalCopy trackC4).artists with
        | some l => l
        | none => [(mkTidalCopy trackC4).artist]) = [⟨"x"⟩] from rfl]
    rw [artistSim_single, stringSim_of_eq (by decide)]
    norm_num [ratMax]
  · exact stringSim_of_eq (by decide)
  · exact durationSim_zero (Or.inl (by norm_num [trackC4]))

theorem spec_C4_counterexample :
    trackC4.artists ≠ [] ∧
    calculateSimilarity trackC4 (mkTidalCopy trackC4) = 39/40 ∧
    calculateSimilarity trackC4 (mkTidalCopy trackC4) ≠ 1 :=
  ⟨by decide, calcSim_trackC4, by rw [calcSim_trackC4]; norm_num⟩

theorem trackC4w_duration_ne_zero : trackC4w.duration ≠ 0 := by
  norm_num [trackC4w]

theorem spec_C4_witness :
    (trackC4w.artists ≠ [] ∧ trackC4w.duration ≠ 0) ∧
    calculateSimilarity trackC4w (mkTidalCopy trackC4w) = 1 :=
  ⟨⟨by decide, trackC4w_duration_ne_zero⟩,
   spec_C4 trackC4w (by decide) trackC4w_duration_ne_zero⟩

/-! ### Resolver step lemmas (C3, C9, C1) -/

theorem generateSearchQueries_single_length (t : Track) (hart : t.artists.length = 1) :
    (generateSearchQueries t).length = 3 := by
  simp [generateSearchQueries, hart]

theorem scan_nil (t : Track) (best : Option TidalTrack) (conf : ℚ) :
    scanCandidates t [] best conf = (best, conf) := by
  rw [scanCandidates]

theorem scan_accept_hi {t : Track} {c : TidalTrack} {s : ℚ} (cs : List TidalTrack)
    (best : Option TidalTrack) {conf : ℚ} (hsc : calculateSimilarity t c = s)
    (hgt : conf < s) (hge : SIMILARITY_THRESHOLD ≤ s)
    (hhi : HIGH_CONFIDENCE_THRESHOLD ≤ s) :
    scanCandidates t (c :: cs) best conf = (some c, s) := by
  rw [scanCandidates, hsc, if_pos ⟨hgt, hge⟩, if_pos hhi]

theorem scan_accept_mid {t : Track} {c : TidalTrack} {s : ℚ} (cs : List TidalTrack)
    (best : Option TidalTrack) {conf : ℚ} (hsc : calculateSimilarity t c = s)
    (hgt : conf < s) (hge : SIMILARITY_THRESHOLD ≤ s)
    (hlt : s < HIGH_CONFIDENCE_THRESHOLD) :
    scanCandidates t (c :: cs) best conf = scanCandidates t cs (some c) s := by
  rw [scanCandidates, hsc, if_pos ⟨hgt, hge⟩, if_neg (not_le.mpr hlt)]

theorem scan_reject {t : Track} {c : TidalTrack} {s : ℚ} (cs : List TidalTrack)
    (best : Option TidalTrack) {conf : ℚ} (hsc : calculateSimilarity t c = s)
    (hrej : ¬(conf < s ∧ SIMILARITY_THRESHOLD ≤ s)) :
    scanCandidates t (c :: cs) best conf = scanCandidates t cs best conf := by
  rw [scanCandidates, hsc, if_neg hrej]

theorem fbmLoop_nil (t : Track) (search : SearchOracle) (n : Nat)
    (attempts : List String) (best : Option TidalTrack) (conf : ℚ) :
    findBestMatchLoop t search [] n attempts best conf = ⟨best, conf, attempts⟩ := by
  rw [findBestMatchLoop]

theorem fbmLoop_empty {search : SearchOracle} {q : SearchQuery} {n : Nat} {r : SearchResponse}
    (t : Track) (qs : List SearchQuery) (attempts : List String)
    (best : Option TidalTrack) (conf : ℚ)
    (h : search n q.artist q.title = .ok r) (he : r.tracksItems = []) :
    findBestMatchLoop t search (q :: qs) n attempts best conf =
      findBestMatchLoop t search qs (n + 1) (attempts ++ [q.description]) best conf := by
  rw [findBestMatchLoop, h]
  simp [he]

theorem fbmLoop_found {search : SearchOracle} {q : SearchQuery} {n : Nat} {r : SearchResponse}
    {t : Track} {best1 : Option TidalTrack} {conf1 : ℚ}
    (qs : List SearchQuery) (attempts : List String)
    (best : Option TidalTrack) (conf : ℚ)
    (h : search n q.artist q.title = .ok r) (hne : r.tracksItems ≠ [])
    (hscan : scanCandidates t r.tracksItems best conf = (best1, conf1))
    (hhi : HIGH_CONFIDENCE_THRESHOLD ≤ conf1) :
    findBestMatchLoop t search (q :: qs) n attempts best conf =
      ⟨best1, conf1, attempts ++ [q.description]⟩ := by
  rw [findBestMatchLoop, h]
  simp [hne, hscan, hhi]

theorem fbmLoop_continue {search : SearchOracle} {q : SearchQuery} {n : Nat}
    {r : SearchResponse} {t : Track} {best1 : Option TidalTrack} {conf1 : ℚ}
    (qs : List SearchQuery) (attempts : List String)
    (best : Option TidalTrack) (conf : ℚ)
    (h : search n q.artist q.title = .ok r) (hne : r.tracksItems ≠ [])
    (hscan : scanCandidates t r.tracksItems best conf = (best1, conf1))
    (hlt : conf1 < HIGH_CONFIDENCE_THRESHOLD) :
    findBestMatchLoop t search (q :: qs) n attempts best conf =
      findBestMatchLoop t search qs (n + 1) (attempts ++ [q.description]) best1 conf1 := by
  rw [findBestMatchLoop, h]
  simp [hne, hscan, not_le.mpr hlt]

theorem similarity_threshold_pos : (0 : ℚ) < SIMILARITY_THRESHOLD := by
  norm_num [SIMILARITY_THRESHOLD]

/-- C3: for a single-artist track (exactly three generated
strategies), if the searches for the first two strategies return no
candidates and the third returns a candidate scoring 0.95, then
`findBestMatch` returns that candidate with confidence 0.95 and an
attempt log of exactly 3 query descriptions; 0.95 reaches the
high-confidence threshold, so the loop stops there. -/
theorem spec_C3 (search : SearchOracle) (t : Track) (c : TidalTrack)
    (hart : t.artists.length = 1)
    (h0 : ∀ a ti, search 0 a ti = .ok ⟨[], []⟩)
    (h1 : ∀ a ti, search 1 a ti = .ok ⟨[], []⟩)
    (h2 : ∀ a ti, search 2 a ti = .ok ⟨[c], []⟩)
    (hscore : calculateSimilarity t c = 95/100) :
    (findBestMatch search t).tidalTrack = some c ∧
    (findBestMatch search t).confidence = 95/100 ∧
    (findBestMatch search t).searchAttempts.length = 3 ∧
    HIGH_CONFIDENCE_THRESHOLD ≤ (95 : ℚ)/100 := by
  obtain ⟨q1, q2, q3, hq⟩ :=
    List.length_eq_three.mp (generateSearchQueries_single_length t hart)
  have hrun : findBestMatch search t =
      ⟨some c, 95/100, [q1.description, q2.description, q3.description]⟩ := by
    rw [findBestMatch, hq,
      fbmLoop_empty t [q2, q3] [] none 0 (h0 _ _) rfl,
      fbmLoop_empty t [q3] _ none 0 (h1 _ _) rfl,
      fbmLoop_found [] _ none 0 (h2 _ _) (by simp)
        (scan_accept_hi [] none hscore (by norm_num)
          (by norm_num [SIMILARITY_THRESHOLD]) (by norm_num [HIGH_CONFIDENCE_THRESHOLD]))
        (by norm_num [HIGH_CONFIDENCE_THRESHOLD])]
    simp
  rw [hrun]
  exact ⟨rfl, rfl, rfl, by norm_num [HIGH_CONFIDENCE_THRESHOLD]⟩

theorem spec_C3_witness :
    (trackC3.artists.length = 1 ∧
     (∀ a ti, searchC3 0 a ti = .ok ⟨[], []⟩) ∧
     (∀ a ti, searchC3 1 a ti = .ok ⟨[], []⟩) ∧
     (∀ a ti, searchC3 2 a ti = .ok ⟨[tidalC3], []⟩) ∧
     calculateSimilarity trackC3 tidalC3 = 95/100) ∧
    ((findBestMatch searchC3 trackC3).tidalTrack = some tidalC3 ∧
     (findBestMatch searchC3 trackC3).confidence = 95/100 ∧
     (findBestMatch searchC3 trackC3).searchAttempts.length = 3 ∧
     HIGH_CONFIDENCE_THRESHOLD ≤ (95 : ℚ)/100) :=
  ⟨⟨rfl, fun _ _ => rfl, fun _ _ => rfl, fun _ _ => rfl, calcSim_trackC3⟩,
   spec_C3 searchC3 trackC3 tidalC3 rfl (fun _ _ => rfl) (fun _ _ => rfl)
     (fun _ _ => rfl) calcSim_trackC3⟩

theorem findBestMatch_const_accept (search : SearchOracle) (t : Track)
    (c : TidalTrack) (d : List SearchDataItem) (s : ℚ)
    (hart : t.artists.length = 1)
    (hs : ∀ n a ti, search n a ti = .ok ⟨[c], d⟩)
    (hscore : calculateSimilarity t c = s)
    (hge : SIMILARITY_THRESHOLD ≤ s) (hlt : s < HIGH_CONFIDENCE_THRESHOLD) :
    findBestMatch search t =
      ⟨some c, s, (generateSearchQueries t).map SearchQuery.description⟩ := by
  obtain ⟨q1, q2, q3, hq⟩ :=
    List.length_eq_three.mp (generateSearchQueries_single_length t hart)
  have hgt0 : (0 : ℚ) < s := lt_of_lt_of_le similarity_threshold_pos hge
  have hscan1 : scanCandidates t [c] none 0 = (some c, s) :=
    (scan_accept_mid [] none hscore hgt0 hge hlt).trans (scan_nil t (some c) s)
  have hscan2 : scanCandidates t [c] (some c) s = (some c, s) :=
    (scan_reject [] (some c) hscore fun hcon => lt_irrefl s hcon.1).trans
      (scan_nil t (some c) s)
  rw [findBestMatch, hq,
    fbmLoop_continue [q2, q3] [] none 0 (hs 0 _ _) (by simp) hscan1 hlt,
    fbmLoop_continue [q3] _ (some c) s (hs 1 _ _) (by simp) hscan2 hlt,
    fbmLoop_continue [] _ (some c) s (hs 2 _ _) (by simp) hscan2 hlt,
    fbmLoop_nil]
  simp

theorem findBestMatch_const_reject (search : SearchOracle) (t : Track)
    (c : TidalTrack) (d : List SearchDataItem) (s : ℚ)
    (hart : t.artists.length = 1)
    (hs : ∀ n a ti, search n a ti = .ok ⟨[c], d⟩)
    (hscore : calculateSimilarity t c = s)
    (hlow : s < SIMILARITY_THRESHOLD) :
    findBestMatch search t =
      ⟨none, 0, (generateSearchQueries t).map SearchQuery.description⟩ := by
  obtain ⟨q1, q2, q3, hq⟩ :=
    List.length_eq_three.mp (generateSearchQueries_single_length t hart)
  have hscan : scanCandidates t [c] none 0 = (none, 0) :=
    (scan_reject [] none hscore fun hcon => absurd hcon.2 (not_le.mpr hlow)).trans
      (scan_nil t none 0)
  have hlt0 : (0 : ℚ) < HIGH_CONFIDENCE_THRESHOLD := by
    norm_num [HIGH_CONFIDENCE_THRESHOLD]
  rw [findBestMatch, hq,
    fbmLoop_continue [q2, q3] [] none 0 (hs 0 _ _) (by simp) hscan hlt0,
    fbmLoop_continue [q3] _ none 0 (hs 1 _ _) (by simp) hscan hlt0,
    fbmLoop_continue [] _ none 0 (hs 2 _ _) (by simp) hscan hlt0,
    fbmLoop_nil]
  simp

/-- C9: the create-path executor counts a source track as successful
exactly when the matcher returned a track with confidence strictly
greater than 0.7, and counts it as failed otherwise; consequently, on
the concrete input whose best match scores exactly 0.7, the resolver
returns the candidate as a resolved match (it accepts scores ≥ 0.7)
while the executor records the track as failed. -/
theorem spec_C9 :
    (∀ (search : SearchOracle) (acc : AddTracksOutcome) (track : Track),
      ((addTracksStep search acc track).successfulTracks = acc.successfulTracks + 1 ↔
        (findBestMatch search track).tidalTrack.isSome ∧
          (findBestMatch search track).confidence > 7/10) ∧
      ((addTracksStep search acc track).failedTracks = acc.failedTracks + 1 ↔
        ¬((findBestMatch search track).tidalTrack.isSome ∧
          (findBestMatch search track).confidence > 7/10))) ∧
    (findBestMatch searchC9 trackC9).tidalTrack = some tidalC9 ∧
    (findBestMatch searchC9 trackC9).confidence = 7/10 ∧
    (addTracksStep searchC9 ⟨[], 0, 0, []⟩ trackC9).successfulTracks = 0 ∧
    (addTracksStep searchC9 ⟨[], 0, 0, []⟩ trackC9).failedTracks = 1 := by
  have hgen : ∀ (search : SearchOracle) (acc : AddTracksOutcome) (track : Track),
      ((addTracksStep search acc track).successfulTracks = acc.successfulTracks + 1 ↔
        (findBestMatch search track).tidalTrack.isSome ∧
          (findBestMatch search track).confidence > 7/10) ∧
      ((addTracksStep search acc track).failedTracks = acc.failedTracks + 1 ↔
        ¬((findBestMatch search track).tidalTrack.isSome ∧
          (findBestMatch search track).confidence > 7/10)) := by
    intro search acc track
    rw [addTracksStep]
    by_cases h : (findBestMatch search track).tidalTrack.isSome ∧
        (findBestMatch search track).confidence > 7/10
    · rw [if_pos h]
      refine ⟨by simp [h], ?_, fun hn => absurd h hn⟩
      intro he
      simp at he
    · rw [if_neg h]
      refine ⟨⟨?_, fun hp => absurd hp h⟩, by simp [h]⟩
      intro he
      simp at he
  have hrun : findBestMatch searchC9 trackC9 =
      ⟨some tidalC9, 7/10, (generateSearchQueries trackC9).map SearchQuery.description⟩ :=
    findBestMatch_const_accept searchC9 trackC9 tidalC9 [] (7/10) rfl
      (fun _ _ _ => rfl) calcSim_trackC9 (by norm_num [SIMILARITY_THRESHOLD])
      (by norm_num [HIGH_CONFIDENCE_THRESHOLD])
  have hstep : (addTracksStep searchC9 ⟨[], 0, 0, []⟩ trackC9).successfulTracks = 0 ∧
      (addTracksStep searchC9 ⟨[], 0, 0, []⟩ trackC9).failedTracks = 1 := by
    rw [addTracksStep, hrun, if_neg (fun hcon => lt_irrefl ((7 : ℚ)/10) hcon.2)]
    exact ⟨rfl, rfl⟩
  exact ⟨hgen, by rw [hrun], by rw [hrun], hstep.1, hstep.2⟩

/-! ### Update-path resolution (C1) -/

/-- C1 (amended): in the update path each source track is resolved not
by `SongMatcher.findBestMatch` but by one direct search whose first
`data` id is kept only when it verifies as available — the collected
id list is exactly the per-track first-result outcome, in source
order, and the failure list is exactly the per-track failure messages.
The matched id sets can therefore differ from the create path on the
same service (see the counterexample). -/
theorem spec_C1 (search : SimpleSearch) (verify : VerifyOracle) (tracks : List Track) :
    (updateResolveTracks search verify tracks).1 =
      tracks.filterMap (fun track =>
        match updateResolveTrack search verify track with
        | .inl id => some id
        | .inr _ => none) ∧
    (updateResolveTracks search verify tracks).2 =
      tracks.filterMap (fun track =>
        match updateResolveTrack search verify track with
        | .inl _ => none
        | .inr msg => some msg) := by
  have hinv : ∀ (ts : List Track) (acc : List String × List String),
      (ts.foldl (fun acc track =>
        match updateResolveTrack search verify track with
        | .inl id => (acc.1 ++ [id], acc.2)
        | .inr msg => (acc.1, acc.2 ++ [msg])) acc) =
      (acc.1 ++ ts.filterMap (fun track =>
          match updateResolveTrack search verify track with
          | .inl id => some id
          | .inr _ => none),
       acc.2 ++ ts.filterMap (fun track =>
          match updateResolveTrack search verify track with
          | .inl _ => none
          | .inr msg => some msg)) := by
    intro ts
    induction ts with
    | nil => intro acc; simp
    | cons tr ts ih =>
      intro acc
      rw [List.foldl_cons, List.filterMap_cons, List.filterMap_cons]
      cases hres : updateResolveTrack search verify tr with
      | inl id =>
        rw [ih]
        simp
      | inr msg =>
        rw [ih]
        simp
  rw [updateResolveTracks, hinv tracks ([], [])]
  simp

theorem spec_C1_counterexample :
    (updateResolveTracks sharedSearch verifyAvailable [trackC1]).1 = ["77"] ∧
    (addTracksToTidalPlaylist sharedSearchIndexed (fun _ => .ok ()) [trackC1]).matchedTrackIds
      = [] ∧
    (["77"] : List String) ≠ [] := by
  refine ⟨rfl, ?_, by decide⟩
  have hrun : findBestMatch sharedSearchIndexed trackC1 =
      ⟨none, 0, (generateSearchQueries trackC1).map SearchQuery.description⟩ :=
    findBestMatch_const_reject sharedSearchIndexed trackC1 tidalC1 [⟨"77"⟩] (1/20) rfl
      (fun _ _ _ => rfl) calcSim_trackC1 (by norm_num [SIMILARITY_THRESHOLD])
  have hstep : addTracksStep sharedSearchIndexed ⟨[], 0, 0, []⟩ trackC1 =
      ⟨[], 0, 1, ["Could not find match for \"" ++ primaryArtistName trackC1 ++ " - " ++
        trackC1.title ++ "\""]⟩ := by
    rw [addTracksStep, hrun, if_neg (fun hcon => by simpa using hcon.1)]
    rfl
  rw [addTracksToTidalPlaylist, List.foldl_cons, List.foldl_nil, hstep]
  rfl

end SpotifyTidal
